import Mathlib

/-!
Verification development for the `dashapi` package
(src/dashboard/dashapi/dashapi.go): a client-side API binding that
exchanges JSON payloads over HTTP with a remote reporting service.

The Go code is shallowly embedded: byte slices become `List Nat`
(each element a byte value), strings become `String`, fallible
operations return `Except String`/`Option`, and the two injected
callbacks of `Query` (`RequestCtor`, `RequestDoer`) become function
parameters.  Standard-library behaviour that `Query` relies on
(JSON marshaling, gzip framing, URL query encoding, `fmt` formatting)
is modelled explicitly below, next to the definitions that use it.
-/

namespace Dashapi

/-- Bytes of a Go byte slice: a list of numbers, each intended `< 256`. -/
abbrev Bytes := List Nat

/-- Little-endian encoding of a number into two bytes (used by the
DEFLATE stored-block framing for `LEN`/`NLEN`). -/
def toLE2 (n : Nat) : Bytes := [n % 256, n / 256 % 256]

/-- Read a two-byte little-endian number. -/
def readLE2 (a b : Nat) : Nat := a + 256 * b

/-- Little-endian encoding of a number into four bytes, modulo `2^32`
(used by the gzip trailer for `CRC32` and `ISIZE`). -/
def toLE4 (n : Nat) : Bytes :=
  [n % 256, n / 256 % 256, n / 65536 % 256, n / 16777216 % 256]

/-- Read a four-byte little-endian number. -/
def readLE4 (a b c d : Nat) : Nat := a + 256 * b + 65536 * c + 16777216 * d

/-- One bit step of the reflected CRC-32 computation (polynomial
`0xEDB88320`), as used by the gzip trailer. -/
def crcBit (c : Nat) : Nat :=
  if c % 2 = 1 then Nat.xor (c / 2) 0xEDB88320 else c / 2

/-- Fold one byte into a running CRC-32 value. -/
def crcByte (c b : Nat) : Nat := crcBit^[8] (Nat.xor c b)

/-- CRC-32 checksum of a byte sequence (gzip trailer field). -/
def crc32 (data : Bytes) : Nat :=
  Nat.xor (data.foldl crcByte 0xFFFFFFFF) 0xFFFFFFFF

/-- DEFLATE framing of a payload as a sequence of stored
(uncompressed) blocks: each block is a 1-byte header
(`BFINAL` + `BTYPE=00`), a 16-bit `LEN`, its complement `NLEN`, and
`LEN` literal bytes.  This models the invertible framing produced by
`gzip.NewWriter` in `Query` (dashapi.go lines 170-177); the embedding
uses stored blocks, a legal DEFLATE encoding, so that decompression
is an exact inverse. -/
def deflateStored (data : Bytes) : Bytes :=
  if data.length < 65536 then
    1 :: (toLE2 data.length ++ (toLE2 (65535 - data.length) ++ data))
  else
    0 :: (toLE2 65535 ++ (toLE2 0 ++
      (data.take 65535 ++ deflateStored (data.drop 65535))))
termination_by data.length
decreasing_by
  simp only [List.length_drop]
  omega

/-- The 10-byte gzip member header written by `gzip.NewWriter` with
no name/comment/extra fields (magic, CM=deflate, OS=unknown). -/
def gzipHeader : Bytes := [31, 139, 8, 0, 0, 0, 0, 0, 0, 255]

/-- Models the `gzip.NewWriter` + `Write` + `Close` sequence of
`Query` (dashapi.go lines 170-177): gzip member header, DEFLATE
blocks, then a CRC-32 / payload-length (mod `2^32`) trailer. -/
def gzipCompress (data : Bytes) : Bytes :=
  gzipHeader ++ deflateStored data ++ toLE4 (crc32 data) ++ toLE4 data.length

/-- Parse a sequence of DEFLATE stored blocks; returns the payload and
the bytes following the final block. -/
def inflateStored (input : Bytes) : Option (Bytes × Bytes) :=
  match input with
  | b :: l1 :: l2 :: n1 :: n2 :: rest =>
    let len := readLE2 l1 l2
    if readLE2 n1 n2 = 65535 - len ∧ len ≤ rest.length then
      if b = 1 then some (rest.take len, rest.drop len)
      else if b = 0 then
        match inflateStored (rest.drop len) with
        | some (d, r) => some (rest.take len ++ d, r)
        | none => none
      else none
    else none
  | _ => none
termination_by input.length
decreasing_by
  simp only [List.length_drop, List.length_cons]
  omega

/-- Gzip decompression for the stored-block framing: checks the
member header, inflates the blocks, and requires exactly 8 trailer
bytes with `ISIZE` equal to the payload length mod `2^32` (the CRC
bytes are skipped, which does not affect the inverse property). -/
def gzipDecompress (bs : Bytes) : Option Bytes :=
  if bs.take 10 = gzipHeader then
    match inflateStored (bs.drop 10) with
    | some (data, [_, _, _, _, i1, i2, i3, i4]) =>
      if readLE4 i1 i2 i3 i4 = data.length % 4294967296 then some data else none
    | _ => none
  else none

/-- Unfolding equation for `inflateStored` on an explicit block head. -/
theorem inflateStored_cons (b l1 l2 n1 n2 : Nat) (rest : Bytes) :
    inflateStored (b :: l1 :: l2 :: n1 :: n2 :: rest) =
      (let len := readLE2 l1 l2
       if readLE2 n1 n2 = 65535 - len ∧ len ≤ rest.length then
        if b = 1 then some (rest.take len, rest.drop len)
        else if b = 0 then
          match inflateStored (rest.drop len) with
          | some (d, r) => some (rest.take len ++ d, r)
          | none => none
        else none
       else none) := by
  rw [inflateStored.eq_def]

/-- Inflating a single final stored block recovers the payload and
leaves the trailing bytes untouched. -/
theorem inflateStored_deflateStored_small (data trailer : Bytes)
    (hlen : data.length < 65536) :
    inflateStored (deflateStored data ++ trailer) = some (data, trailer) := by
  rw [deflateStored.eq_def, if_pos hlen]
  simp only [toLE2, List.cons_append, List.append_assoc, List.nil_append]
  rw [inflateStored_cons]
  have h1 : readLE2 (data.length % 256) (data.length / 256 % 256) = data.length := by
    simp only [readLE2]; omega
  have h2 : readLE2 ((65535 - data.length) % 256) ((65535 - data.length) / 256 % 256)
      = 65535 - data.length := by
    simp only [readLE2]; omega
  simp only [h1, h2]
  have hle : data.length ≤ (data ++ trailer).length := by
    simp [List.length_append]
  simp only [true_and]
  rw [if_pos hle]
  simp only [if_true]
  rw [List.take_left' rfl, List.drop_left' rfl]

/-- Inflating the stored-block framing of any payload recovers the
payload and leaves the trailing bytes untouched. -/
theorem inflateStored_deflateStored (n : Nat) :
    ∀ (data trailer : Bytes), data.length ≤ n →
      inflateStored (deflateStored data ++ trailer) = some (data, trailer) := by
  induction n with
  | zero =>
    intro data trailer h
    exact inflateStored_deflateStored_small data trailer (by omega)
  | succ n ih =>
    intro data trailer h
    by_cases hlen : data.length < 65536
    · exact inflateStored_deflateStored_small data trailer hlen
    · rw [deflateStored.eq_def, if_neg hlen]
      simp only [toLE2, List.cons_append, List.append_assoc, List.nil_append]
      rw [inflateStored_cons]
      have h1 : readLE2 (65535 % 256) (65535 / 256 % 256) = 65535 := by
        simp only [readLE2]
      have h2 : readLE2 (0 % 256) (0 / 256 % 256) = 0 := by
        simp only [readLE2]
      simp only [h1, h2, Nat.sub_self]
      have htk : (data.take 65535).length = 65535 := by
        simp only [List.length_take]; omega
      have hle : 65535 ≤ (data.take 65535 ++ (deflateStored (data.drop 65535) ++ trailer)).length := by
        simp only [List.length_append, htk]; omega
      simp only [true_and]
      rw [if_pos hle]
      rw [if_neg (by omega : ¬ (0 : Nat) = 1)]
      simp only [if_true]
      have hrec : inflateStored (deflateStored (data.drop 65535) ++ trailer)
          = some (data.drop 65535, trailer) := by
        apply ih
        simp only [List.length_drop]
        omega
      rw [List.take_left' htk, List.drop_left' htk, hrec]
      simp [List.take_append_drop]

/-- Round trip: decompressing the gzip stream produced by
`gzipCompress` recovers the original payload exactly. -/
theorem gzipDecompress_gzipCompress (data : Bytes) :
    gzipDecompress (gzipCompress data) = some data := by
  have h := inflateStored_deflateStored data.length data
    (toLE4 (crc32 data) ++ toLE4 data.length) (Nat.le_refl _)
  rw [gzipCompress, gzipDecompress]
  simp only [List.append_assoc]
  have h10 : gzipHeader.length = 10 := rfl
  rw [List.take_left' h10, List.drop_left' h10, if_pos rfl]
  simp only [List.append_assoc] at h
  rw [h]
  have hr : readLE4 (data.length % 256) (data.length / 256 % 256)
      (data.length / 65536 % 256) (data.length / 16777216 % 256)
      = data.length % 4294967296 := by
    simp only [readLE4]; omega
  simp [toLE4, hr]

/-- The standard base64 alphabet used by Go `encoding/json` when
marshaling `[]byte` values. -/
def b64chars : List Char :=
  "ABCDEFGHIJKLMNOPQRSTUVWXYZabcdefghijklmnopqrstuvwxyz0123456789+/".data

/-- Character for a six-bit group. -/
def sextetChar (n : Nat) : Char := b64chars.getD n 'A'

/-- Inverse alphabet lookup. -/
def charSextet (c : Char) : Option Nat := b64chars.findIdx? (· == c)

/-- The alphabet lookup inverts the character table on every sextet. -/
theorem charSextet_sextetChar : ∀ n < 64, charSextet (sextetChar n) = some n := by decide

/-- No alphabet character is the padding character. -/
theorem sextetChar_ne_pad : ∀ n < 64, sextetChar n ≠ '=' := by decide

/-- Standard (padded) base64 encoding of a byte sequence, as produced
by Go `encoding/json` for `[]byte` struct fields. -/
def base64Encode : Bytes → List Char
  | [] => []
  | [a] => [sextetChar (a / 4), sextetChar (a % 4 * 16), '=', '=']
  | [a, b] => [sextetChar (a / 4), sextetChar (a % 4 * 16 + b / 16),
               sextetChar (b % 16 * 4), '=']
  | a :: b :: c :: rest =>
    sextetChar (a / 4) :: (sextetChar (a % 4 * 16 + b / 16) ::
      (sextetChar (b % 16 * 4 + c / 64) :: (sextetChar (c % 64) ::
        base64Encode rest)))

/-- Standard (padded) base64 decoding, as performed by Go
`encoding/json` when unmarshaling a JSON string into `[]byte`. -/
def base64Decode : List Char → Option Bytes
  | [] => some []
  | c1 :: c2 :: c3 :: c4 :: rest =>
    match charSextet c1, charSextet c2 with
    | some s1, some s2 =>
      if c3 = '=' then
        if c4 = '=' ∧ rest = [] ∧ s2 % 16 = 0 then some [s1 * 4 + s2 / 16] else none
      else
        match charSextet c3 with
        | some s3 =>
          if c4 = '=' then
            if rest = [] ∧ s3 % 4 = 0 then
              some [s1 * 4 + s2 / 16, s2 % 16 * 16 + s3 / 4]
            else none
          else
            match charSextet c4 with
            | some s4 =>
              match base64Decode rest with
              | some bs =>
                some ((s1 * 4 + s2 / 16) :: ((s2 % 16 * 16 + s3 / 4) ::
                  ((s3 % 4 * 64 + s4) :: bs)))
              | none => none
            | none => none
        | none => none
    | _, _ => none
  | _ => none

/-- Base64 round trip: decoding the encoding of any byte sequence
recovers it exactly. -/
theorem base64Decode_base64Encode (bs : Bytes) (h : ∀ x ∈ bs, x < 256) :
    base64Decode (base64Encode bs) = some bs := by
  match bs with
  | [] => rfl
  | [a] =>
    have ha : a < 256 := h a (by simp)
    rw [base64Encode, base64Decode]
    rw [charSextet_sextetChar _ (by omega), charSextet_sextetChar _ (by omega)]
    dsimp only
    rw [if_pos rfl, if_pos (And.intro rfl (And.intro rfl (by omega)))]
    have h1 : a / 4 * 4 + a % 4 * 16 / 16 = a := by omega
    rw [h1]
  | [a, b] =>
    have ha : a < 256 := h a (by simp)
    have hb : b < 256 := h b (by simp)
    rw [base64Encode, base64Decode]
    rw [charSextet_sextetChar _ (by omega), charSextet_sextetChar _ (by omega)]
    dsimp only
    rw [if_neg (sextetChar_ne_pad _ (by omega))]
    rw [charSextet_sextetChar _ (by omega)]
    dsimp only
    rw [if_pos rfl, if_pos (And.intro rfl (by omega))]
    have h1 : a / 4 * 4 + (a % 4 * 16 + b / 16) / 16 = a := by omega
    have h2 : (a % 4 * 16 + b / 16) % 16 * 16 + b % 16 * 4 / 4 = b := by omega
    rw [h1, h2]
  | a :: b :: c :: rest =>
    have ha : a < 256 := h a (by simp)
    have hb : b < 256 := h b (by simp)
    have hc : c < 256 := h c (by simp)
    have ih := base64Decode_base64Encode rest
      (fun x hx => h x (by simp [hx]))
    rw [base64Encode, base64Decode]
    rw [charSextet_sextetChar _ (by omega), charSextet_sextetChar _ (by omega)]
    dsimp only
    rw [if_neg (sextetChar_ne_pad _ (by omega))]
    rw [charSextet_sextetChar _ (by omega)]
    dsimp only
    rw [if_neg (sextetChar_ne_pad _ (by omega))]
    rw [charSextet_sextetChar _ (by omega)]
    dsimp only
    rw [ih]
    have h1 : a / 4 * 4 + (a % 4 * 16 + b / 16) / 16 = a := by omega
    have h2 : (a % 4 * 16 + b / 16) % 16 * 16 + (b % 16 * 4 + c / 64) / 4 = b := by omega
    have h3 : (b % 16 * 4 + c / 64) % 4 * 64 + c % 64 = c := by omega
    rw [h1, h2, h3]
termination_by bs.length

/-- JSON values, the target of Go `encoding/json` marshaling at the
abstract-syntax level (numbers restricted to integers, which is all
the dashapi records use). -/
inductive JSON where
  | null
  | bool (b : Bool)
  | num (n : Int)
  | str (s : String)
  | arr (xs : List JSON)
  | obj (fields : List (String × JSON))

/-- Lowercase hex digit. -/
def hexDigitL (n : Nat) : Char := "0123456789abcdef".data.getD n '0'

/-- JSON `\u00xx` escape used by Go for control and HTML characters. -/
def hexEsc (n : Nat) : String :=
  "\\u" ++ String.mk [hexDigitL (n / 4096 % 16), hexDigitL (n / 256 % 16),
                      hexDigitL (n / 16 % 16), hexDigitL (n % 16)]

/-- Go `encoding/json` string escaping for one character: quotes and
backslashes, HTML characters (Go marshals with `SetEscapeHTML(true)`),
named control escapes, other control characters and the line/paragraph
separators as `\u` escapes. -/
def jsonEscapeChar (c : Char) : String :=
  if c = '"' then "\\\""
  else if c = '\\' then "\\\\"
  else if c = '<' ∨ c = '>' ∨ c = '&' then hexEsc c.toNat
  else if c = '\n' then "\\n"
  else if c = '\r' then "\\r"
  else if c = '\t' then "\\t"
  else if c.toNat < 32 ∨ c.toNat = 8232 ∨ c.toNat = 8233 then hexEsc c.toNat
  else String.mk [c]

/-- Escape a whole string for a JSON string literal. -/
def jsonEscape (s : String) : String := String.join (s.data.map jsonEscapeChar)

mutual
/-- Compact JSON text of a value, as produced by `json.Marshal`
(no whitespace, fields in struct order). -/
def jsonSerialize : JSON → String
  | .null => "null"
  | .bool b => if b then "true" else "false"
  | .num n => toString n
  | .str s => "\"" ++ jsonEscape s ++ "\""
  | .arr xs => "[" ++ serializeItems xs ++ "]"
  | .obj fs => "\x7b" ++ serializeFields fs ++ "\x7d"

def serializeItems : List JSON → String
  | [] => ""
  | [x] => jsonSerialize x
  | x :: y :: rest => jsonSerialize x ++ "," ++ serializeItems (y :: rest)

def serializeFields : List (String × JSON) → String
  | [] => ""
  | [(k, v)] => "\"" ++ jsonEscape k ++ "\":" ++ jsonSerialize v
  | (k, v) :: f :: rest =>
    "\"" ++ jsonEscape k ++ "\":" ++ jsonSerialize v ++ "," ++ serializeFields (f :: rest)
end

/-- UTF-8 encoding of one character. -/
def charUtf8 (c : Char) : Bytes :=
  let n := c.toNat
  if n < 128 then [n]
  else if n < 2048 then [192 + n / 64, 128 + n % 64]
  else if n < 65536 then [224 + n / 4096, 128 + n / 64 % 64, 128 + n % 64]
  else [240 + n / 262144, 128 + n / 4096 % 64, 128 + n / 64 % 64, 128 + n % 64]

/-- UTF-8 bytes of a string, the byte slice Go sees for a marshaled
JSON document (`len(data)` in `Query` counts these bytes). -/
def strToBytes (s : String) : Bytes := s.data.flatMap charUtf8

/-- dashapi.go lines 78-81: a named free-text log line for
centralized logging. -/
structure LogEntry where
  Name : String
  Text : String
deriving DecidableEq

/-- dashapi.go lines 35-44: all aspects of a kernel build.  The Go
`[]byte` field is `Option Bytes`, `none` standing for a nil slice. -/
structure Build where
  Manager : String
  ID : String
  SyzkallerCommit : String
  CompilerID : String
  KernelRepo : String
  KernelBranch : String
  KernelCommit : String
  KernelConfig : Option Bytes
deriving DecidableEq

/-- How `encoding/json` marshals a `[]byte` field: nil to `null`,
otherwise a base64 string. -/
def jsonOfBytes : Option Bytes → JSON
  | none => .null
  | some bs => .str (String.mk (base64Encode bs))

/-- How `encoding/json` marshals a `[]string` field: nil to `null`,
otherwise an array of strings. -/
def jsonOfStrList : Option (List String) → JSON
  | none => .null
  | some ss => .arr (ss.map JSON.str)

/-- `json.Marshal` of a `LogEntry`, at the JSON-value level. -/
def marshalLogEntry (e : LogEntry) : JSON :=
  .obj [("Name", .str e.Name), ("Text", .str e.Text)]

/-- `json.Marshal` of a `Build`, at the JSON-value level: fields in
declaration order under their exact (case-sensitive) names. -/
def marshalBuild (b : Build) : JSON :=
  .obj [("Manager", .str b.Manager), ("ID", .str b.ID),
        ("SyzkallerCommit", .str b.SyzkallerCommit),
        ("CompilerID", .str b.CompilerID), ("KernelRepo", .str b.KernelRepo),
        ("KernelBranch", .str b.KernelBranch), ("KernelCommit", .str b.KernelCommit),
        ("KernelConfig", jsonOfBytes b.KernelConfig)]

/-- `encoding/json` unmarshaling of one JSON value into a `string`
field: strings stored, `null` a no-op, anything else a type error
that leaves the field untouched. -/
def setStr (j : JSON) (cur : String) : String × Option String :=
  match j with
  | .str s => (s, none)
  | .null => (cur, none)
  | _ => (cur, some "json: cannot unmarshal value into Go value of type string")

/-- `encoding/json` unmarshaling of one JSON value into a `[]byte`
field: `null` sets nil, a string is base64-decoded, anything else is
a type error leaving the field untouched. -/
def setBytes (j : JSON) (cur : Option Bytes) : Option Bytes × Option String :=
  match j with
  | .null => (none, none)
  | .str s =>
    match base64Decode s.data with
    | some bs => (some bs, none)
    | none => (cur, some "json: illegal base64 data")
  | _ => (cur, some "json: cannot unmarshal value into Go value of type []uint8")

/-- `json.Unmarshal` into a `LogEntry`: iterate the object fields in
input order, store each matching field, keep only the first error and
continue decoding (the `d.saveError` behaviour of `encoding/json`,
which is why a type mismatch can leave the value partially
populated). -/
def unmarshalLogEntryInto (j : JSON) (v : LogEntry) : LogEntry × Option String :=
  match j with
  | .obj fs =>
    fs.foldl (fun acc kv =>
      if kv.1 = "Name" then
        let r := setStr kv.2 acc.1.Name
        ({ acc.1 with Name := r.1 }, acc.2 <|> r.2)
      else if kv.1 = "Text" then
        let r := setStr kv.2 acc.1.Text
        ({ acc.1 with Text := r.1 }, acc.2 <|> r.2)
      else acc) (v, none)
  | .null => (v, none)
  | _ => (v, some "json: cannot unmarshal value into Go value of type dashapi.LogEntry")

/-- `json.Unmarshal` into a `Build` (same field-loop semantics as
`unmarshalLogEntryInto`). -/
def unmarshalBuildInto (j : JSON) (v : Build) : Build × Option String :=
  match j with
  | .obj fs =>
    fs.foldl (fun acc kv =>
      if kv.1 = "Manager" then
        let r := setStr kv.2 acc.1.Manager
        ({ acc.1 with Manager := r.1 }, acc.2 <|> r.2)
      else if kv.1 = "ID" then
        let r := setStr kv.2 acc.1.ID
        ({ acc.1 with ID := r.1 }, acc.2 <|> r.2)
      else if kv.1 = "SyzkallerCommit" then
        let r := setStr kv.2 acc.1.SyzkallerCommit
        ({ acc.1 with SyzkallerCommit := r.1 }, acc.2 <|> r.2)
      else if kv.1 = "CompilerID" then
        let r := setStr kv.2 acc.1.CompilerID
        ({ acc.1 with CompilerID := r.1 }, acc.2 <|> r.2)
      else if kv.1 = "KernelRepo" then
        let r := setStr kv.2 acc.1.KernelRepo
        ({ acc.1 with KernelRepo := r.1 }, acc.2 <|> r.2)
      else if kv.1 = "KernelBranch" then
        let r := setStr kv.2 acc.1.KernelBranch
        ({ acc.1 with KernelBranch := r.1 }, acc.2 <|> r.2)
      else if kv.1 = "KernelCommit" then
        let r := setStr kv.2 acc.1.KernelCommit
        ({ acc.1 with KernelCommit := r.1 }, acc.2 <|> r.2)
      else if kv.1 = "KernelConfig" then
        let r := setBytes kv.2 acc.1.KernelConfig
        ({ acc.1 with KernelConfig := r.1 }, acc.2 <|> r.2)
      else acc) (v, none)
  | .null => (v, none)
  | _ => (v, some "json: cannot unmarshal value into Go value of type dashapi.Build")

/-- Go zero value of `LogEntry`. -/
def defaultLogEntry : LogEntry := ⟨"", ""⟩
/-- Go zero value of `Build`. -/
def defaultBuild : Build := ⟨"", "", "", "", "", "", "", none⟩

/-- A modelled byte slice holds genuine bytes. -/
def bytesOk (o : Option Bytes) : Prop := ∀ bs ∈ o, ∀ x ∈ bs, x < 256

instance (o : Option Bytes) : Decidable (bytesOk o) := by
  unfold bytesOk; infer_instance

/-- Byte-slice fields survive the marshal/unmarshal round trip. -/
theorem setBytes_jsonOfBytes (o cur : Option Bytes) (h : bytesOk o) :
    setBytes (jsonOfBytes o) cur = (o, none) := by
  match o with
  | none => rfl
  | some bs =>
    rw [jsonOfBytes, setBytes]
    have : base64Decode (String.mk (base64Encode bs)).data = some bs := by
      show base64Decode (base64Encode bs) = some bs
      exact base64Decode_base64Encode bs (fun x hx => h bs (by simp) x hx)
    rw [this]

/-- Round trip for `LogEntry`. -/
theorem logEntry_rt (e : LogEntry) :
    unmarshalLogEntryInto (marshalLogEntry e) defaultLogEntry = (e, none) := by
  simp [marshalLogEntry, unmarshalLogEntryInto, setStr, defaultLogEntry]

/-- Round trip for `Build`. -/
theorem build_rt (b : Build) (h : bytesOk b.KernelConfig) :
    unmarshalBuildInto (marshalBuild b) defaultBuild = (b, none) := by
  simp [marshalBuild, unmarshalBuildInto, setStr, defaultBuild,
    setBytes_jsonOfBytes _ _ h]

/-- dashapi.go lines 51-61: a single kernel crash, optionally with a
reproducer. -/
structure Crash where
  BuildID : String
  Title : String
  Maintainers : Option (List String)
  Log : Option Bytes
  Report : Option Bytes
  ReproOpts : Option Bytes
  ReproSyz : Option Bytes
  ReproC : Option Bytes
deriving DecidableEq

/-- dashapi.go lines 68-72: a failed repro attempt. -/
structure FailedRepro where
  Manager : String
  BuildID : String
  Title : String
deriving DecidableEq

/-- dashapi.go lines 94-108: a single bug, used by dashboard external
reporting. -/
structure BugReport where
  Config : Option Bytes
  ID : String
  Title : String
  Maintainers : Option (List String)
  CompilerID : String
  KernelRepo : String
  KernelBranch : String
  KernelCommit : String
  Log : Option Bytes
  Report : Option Bytes
  KernelConfig : Option Bytes
  ReproC : Option Bytes
  ReproSyz : Option Bytes
deriving DecidableEq

/-- dashapi.go line 126: `type BugStatus int`. -/
abbrev BugStatus := Int
/-- dashapi.go line 127: `type ReproLevel int`. -/
abbrev ReproLevel := Int

/-- dashapi.go lines 110-115: a status update for a bug. -/
structure BugUpdate where
  ID : String
  Status : BugStatus
  ReproLevel : ReproLevel
  DupOf : String
deriving DecidableEq

/-- dashapi.go lines 117-119 (`Type` is a Lean keyword, hence the
primed field name; the JSON key stays `Type`). -/
structure PollRequest where
  Type' : String
deriving DecidableEq

/-- dashapi.go lines 121-123: `Reports []*BugReport`, an optional
list of optional (possibly-nil pointer) reports. -/
structure PollResponse where
  Reports : Option (List (Option BugReport))
deriving DecidableEq

/-- First error of a list of per-element decode results (the
`saveError` accumulation of `encoding/json`). -/
def firstErrAux (l : List (Option String)) : Option String :=
  l.foldl (fun a b => a <|> b) none

/-- No element errors, no accumulated error. -/
theorem firstErrAux_map_none {A : Type} (l : List A) :
    firstErrAux (l.map fun _ => (none : Option String)) = none := by
  induction l with
  | nil => rfl
  | cons x xs ih =>
    simpa [firstErrAux] using ih

/-- Decode one `[]string` array element. -/
def strElem : JSON → String × Option String
  | .str s => (s, none)
  | .null => ("", none)
  | _ => ("", some "json: cannot unmarshal value into Go value of type string")

/-- `encoding/json` unmarshaling into a `[]string` field. -/
def setStrList (j : JSON) (cur : Option (List String)) :
    Option (List String) × Option String :=
  match j with
  | .null => (none, none)
  | .arr xs =>
    let decoded := xs.map strElem
    (some (decoded.map Prod.fst), firstErrAux (decoded.map Prod.snd))
  | _ => (cur, some "json: cannot unmarshal value into Go value of type []string")

/-- A string element decodes to itself. -/
theorem strElem_str (s : String) : strElem (.str s) = (s, none) := rfl

def setInt (j : JSON) (cur : Int) : Int × Option String :=
  match j with
  | .num n => (n, none)
  | .null => (cur, none)
  | _ => (cur, some "json: cannot unmarshal value into Go value of type int")

/-- String-list fields survive the round trip. -/
theorem setStrList_jsonOfStrList (o : Option (List String)) (cur : Option (List String)) :
    setStrList (jsonOfStrList o) cur = (o, none) := by
  match o with
  | none => rfl
  | some ss =>
    rw [jsonOfStrList, setStrList]
    simp only [List.map_map]
    rw [show (Prod.fst ∘ strElem ∘ JSON.str) = (fun s => s) from funext fun s => rfl]
    rw [show (Prod.snd ∘ strElem ∘ JSON.str) = (fun _ => (none : Option String)) from
      funext fun s => rfl]
    rw [List.map_id', firstErrAux_map_none]

/-- `json.Marshal` of a `Crash`. -/
def marshalCrash (c : Crash) : JSON :=
  .obj [("BuildID", .str c.BuildID), ("Title", .str c.Title),
        ("Maintainers", jsonOfStrList c.Maintainers),
        ("Log", jsonOfBytes c.Log), ("Report", jsonOfBytes c.Report),
        ("ReproOpts", jsonOfBytes c.ReproOpts),
        ("ReproSyz", jsonOfBytes c.ReproSyz), ("ReproC", jsonOfBytes c.ReproC)]

/-- `json.Unmarshal` into a `Crash`. -/
def unmarshalCrashInto (j : JSON) (v : Crash) : Crash × Option String :=
  match j with
  | .obj fs =>
    fs.foldl (fun acc kv =>
      if kv.1 = "BuildID" then
        let r := setStr kv.2 acc.1.BuildID
        ({ acc.1 with BuildID := r.1 }, acc.2 <|> r.2)
      else if kv.1 = "Title" then
        let r := setStr kv.2 acc.1.Title
        ({ acc.1 with Title := r.1 }, acc.2 <|> r.2)
      else if kv.1 = "Maintainers" then
        let r := setStrList kv.2 acc.1.Maintainers
        ({ acc.1 with Maintainers := r.1 }, acc.2 <|> r.2)
      else if kv.1 = "Log" then
        let r := setBytes kv.2 acc.1.Log
        ({ acc.1 with Log := r.1 }, acc.2 <|> r.2)
      else if kv.1 = "Report" then
        let r := setBytes kv.2 acc.1.Report
        ({ acc.1 with Report := r.1 }, acc.2 <|> r.2)
      else if kv.1 = "ReproOpts" then
        let r := setBytes kv.2 acc.1.ReproOpts
        ({ acc.1 with ReproOpts := r.1 }, acc.2 <|> r.2)
      else if kv.1 = "ReproSyz" then
        let r := setBytes kv.2 acc.1.ReproSyz
        ({ acc.1 with ReproSyz := r.1 }, acc.2 <|> r.2)
      else if kv.1 = "ReproC" then
        let r := setBytes kv.2 acc.1.ReproC
        ({ acc.1 with ReproC := r.1 }, acc.2 <|> r.2)
      else acc) (v, none)
  | .null => (v, none)
  | _ => (v, some "json: cannot unmarshal value into Go value of type dashapi.Crash")

/-- Go zero value of `Crash`. -/
def defaultCrash : Crash := ⟨"", "", none, none, none, none, none, none⟩

/-- All byte-slice fields of a `Crash` hold genuine bytes. -/
def crashOk (c : Crash) : Prop :=
  bytesOk c.Log ∧ bytesOk c.Report ∧ bytesOk c.ReproOpts ∧
    bytesOk c.ReproSyz ∧ bytesOk c.ReproC

instance (c : Crash) : Decidable (crashOk c) := by
  unfold crashOk; infer_instance

/-- Round trip for `Crash`. -/
theorem crash_rt (c : Crash) (h : crashOk c) :
    unmarshalCrashInto (marshalCrash c) defaultCrash = (c, none) := by
  obtain ⟨h1, h2, h3, h4, h5⟩ := h
  simp [marshalCrash, unmarshalCrashInto, setStr, defaultCrash,
    setStrList_jsonOfStrList,
    setBytes_jsonOfBytes _ _ h1, setBytes_jsonOfBytes _ _ h2,
    setBytes_jsonOfBytes _ _ h3, setBytes_jsonOfBytes _ _ h4,
    setBytes_jsonOfBytes _ _ h5]

/-- `json.Marshal` of a `FailedRepro`. -/
def marshalFailedRepro (f : FailedRepro) : JSON :=
  .obj [("Manager", .str f.Manager), ("BuildID", .str f.BuildID),
        ("Title", .str f.Title)]

/-- `json.Unmarshal` into a `FailedRepro`. -/
def unmarshalFailedReproInto (j : JSON) (v : FailedRepro) : FailedRepro × Option String :=
  match j with
  | .obj fs =>
    fs.foldl (fun acc kv =>
      if kv.1 = "Manager" then
        let r := setStr kv.2 acc.1.Manager
        ({ acc.1 with Manager := r.1 }, acc.2 <|> r.2)
      else if kv.1 = "BuildID" then
        let r := setStr kv.2 acc.1.BuildID
        ({ acc.1 with BuildID := r.1 }, acc.2 <|> r.2)
      else if kv.1 = "Title" then
        let r := setStr kv.2 acc.1.Title
        ({ acc.1 with Title := r.1 }, acc.2 <|> r.2)
      else acc) (v, none)
  | .null => (v, none)
  | _ => (v, some "json: cannot unmarshal value into Go value of type dashapi.FailedRepro")

/-- Go zero value of `FailedRepro`. -/
def defaultFailedRepro : FailedRepro := ⟨"", "", ""⟩

/-- Round trip for `FailedRepro`. -/
theorem failedRepro_rt (f : FailedRepro) :
    unmarshalFailedReproInto (marshalFailedRepro f) defaultFailedRepro = (f, none) := by
  simp [marshalFailedRepro, unmarshalFailedReproInto, setStr, defaultFailedRepro]

/-- `json.Marshal` of a `BugReport`. -/
def marshalBugReport (r : BugReport) : JSON :=
  .obj [("Config", jsonOfBytes r.Config), ("ID", .str r.ID), ("Title", .str r.Title),
        ("Maintainers", jsonOfStrList r.Maintainers),
        ("CompilerID", .str r.CompilerID), ("KernelRepo", .str r.KernelRepo),
        ("KernelBranch", .str r.KernelBranch), ("KernelCommit", .str r.KernelCommit),
        ("Log", jsonOfBytes r.Log), ("Report", jsonOfBytes r.Report),
        ("KernelConfig", jsonOfBytes r.KernelConfig),
        ("ReproC", jsonOfBytes r.ReproC), ("ReproSyz", jsonOfBytes r.ReproSyz)]

/-- `json.Unmarshal` into a `BugReport`. -/
def unmarshalBugReportInto (j : JSON) (v : BugReport) : BugReport × Option String :=
  match j with
  | .obj fs =>
    fs.foldl (fun acc kv =>
      if kv.1 = "Config" then
        let r := setBytes kv.2 acc.1.Config
        ({ acc.1 with Config := r.1 }, acc.2 <|> r.2)
      else if kv.1 = "ID" then
        let r := setStr kv.2 acc.1.ID
        ({ acc.1 with ID := r.1 }, acc.2 <|> r.2)
      else if kv.1 = "Title" then
        let r := setStr kv.2 acc.1.Title
        ({ acc.1 with Title := r.1 }, acc.2 <|> r.2)
      else if kv.1 = "Maintainers" then
        let r := setStrList kv.2 acc.1.Maintainers
        ({ acc.1 with Maintainers := r.1 }, acc.2 <|> r.2)
      else if kv.1 = "CompilerID" then
        let r := setStr kv.2 acc.1.CompilerID
        ({ acc.1 with CompilerID := r.1 }, acc.2 <|> r.2)
      else if kv.1 = "KernelRepo" then
        let r := setStr kv.2 acc.1.KernelRepo
        ({ acc.1 with KernelRepo := r.1 }, acc.2 <|> r.2)
      else if kv.1 = "KernelBranch" then
        let r := setStr kv.2 acc.1.KernelBranch
        ({ acc.1 with KernelBranch := r.1 }, acc.2 <|> r.2)
      else if kv.1 = "KernelCommit" then
        let r := setStr kv.2 acc.1.KernelCommit
        ({ acc.1 with KernelCommit := r.1 }, acc.2 <|> r.2)
      else if kv.1 = "Log" then
        let r := setBytes kv.2 acc.1.Log
        ({ acc.1 with Log := r.1 }, acc.2 <|> r.2)
      else if kv.1 = "Report" then
        let r := setBytes kv.2 acc.1.Report
        ({ acc.1 with Report := r.1 }, acc.2 <|> r.2)
      else if kv.1 = "KernelConfig" then
        let r := setBytes kv.2 acc.1.KernelConfig
        ({ acc.1 with KernelConfig := r.1 }, acc.2 <|> r.2)
      else if kv.1 = "ReproC" then
        let r := setBytes kv.2 acc.1.ReproC
        ({ acc.1 with ReproC := r.1 }, acc.2 <|> r.2)
      else if kv.1 = "ReproSyz" then
        let r := setBytes kv.2 acc.1.ReproSyz
        ({ acc.1 with ReproSyz := r.1 }, acc.2 <|> r.2)
      else acc) (v, none)
  | .null => (v, none)
  | _ => (v, some "json: cannot unmarshal value into Go value of type dashapi.BugReport")

/-- Go zero value of `BugReport`. -/
def defaultBugReport : BugReport :=
  ⟨none, "", "", none, "", "", "", "", none, none, none, none, none⟩

/-- All byte-slice fields of a `BugReport` hold genuine bytes. -/
def bugReportOk (r : BugReport) : Prop :=
  bytesOk r.Config ∧ bytesOk r.Log ∧ bytesOk r.Report ∧
    bytesOk r.KernelConfig ∧ bytesOk r.ReproC ∧ bytesOk r.ReproSyz

instance (r : BugReport) : Decidable (bugReportOk r) := by
  unfold bugReportOk; infer_instance

/-- Round trip for `BugReport`. -/
theorem bugReport_rt (r : BugReport) (h : bugReportOk r) :
    unmarshalBugReportInto (marshalBugReport r) defaultBugReport = (r, none) := by
  obtain ⟨h1, h2, h3, h4, h5, h6⟩ := h
  simp [marshalBugReport, unmarshalBugReportInto, setStr, defaultBugReport,
    setStrList_jsonOfStrList,
    setBytes_jsonOfBytes _ _ h1, setBytes_jsonOfBytes _ _ h2,
    setBytes_jsonOfBytes _ _ h3, setBytes_jsonOfBytes _ _ h4,
    setBytes_jsonOfBytes _ _ h5, setBytes_jsonOfBytes _ _ h6]

/-- `json.Marshal` of a `BugUpdate` (the two enum fields marshal as
their ordinal numbers). -/
def marshalBugUpdate (u : BugUpdate) : JSON :=
  .obj [("ID", .str u.ID), ("Status", .num u.Status),
        ("ReproLevel", .num u.ReproLevel), ("DupOf", .str u.DupOf)]

/-- `json.Unmarshal` into a `BugUpdate`. -/
def unmarshalBugUpdateInto (j : JSON) (v : BugUpdate) : BugUpdate × Option String :=
  match j with
  | .obj fs =>
    fs.foldl (fun acc kv =>
      if kv.1 = "ID" then
        let r := setStr kv.2 acc.1.ID
        ({ acc.1 with ID := r.1 }, acc.2 <|> r.2)
      else if kv.1 = "Status" then
        let r := setInt kv.2 acc.1.Status
        ({ acc.1 with Status := r.1 }, acc.2 <|> r.2)
      else if kv.1 = "ReproLevel" then
        let r := setInt kv.2 acc.1.ReproLevel
        ({ acc.1 with ReproLevel := r.1 }, acc.2 <|> r.2)
      else if kv.1 = "DupOf" then
        let r := setStr kv.2 acc.1.DupOf
        ({ acc.1 with DupOf := r.1 }, acc.2 <|> r.2)
      else acc) (v, none)
  | .null => (v, none)
  | _ => (v, some "json: cannot unmarshal value into Go value of type dashapi.BugUpdate")

/-- Go zero value of `BugUpdate`. -/
def defaultBugUpdate : BugUpdate := ⟨"", 0, 0, ""⟩

/-- Round trip for `BugUpdate`. -/
theorem bugUpdate_rt (u : BugUpdate) :
    unmarshalBugUpdateInto (marshalBugUpdate u) defaultBugUpdate = (u, none) := by
  simp [marshalBugUpdate, unmarshalBugUpdateInto, setStr, setInt, defaultBugUpdate]

/-- `json.Marshal` of a `PollRequest`. -/
def marshalPollRequest (p : PollRequest) : JSON :=
  .obj [("Type", .str p.Type')]

/-- `json.Unmarshal` into a `PollRequest`. -/
def unmarshalPollRequestInto (j : JSON) (v : PollRequest) : PollRequest × Option String :=
  match j with
  | .obj fs =>
    fs.foldl (fun acc kv =>
      if kv.1 = "Type" then
        let r := setStr kv.2 acc.1.Type'
        ({ acc.1 with Type' := r.1 }, acc.2 <|> r.2)
      else acc) (v, none)
  | .null => (v, none)
  | _ => (v, some "json: cannot unmarshal value into Go value of type dashapi.PollRequest")

/-- Go zero value of `PollRequest`. -/
def defaultPollRequest : PollRequest := ⟨""⟩

/-- Round trip for `PollRequest`. -/
theorem pollRequest_rt (p : PollRequest) :
    unmarshalPollRequestInto (marshalPollRequest p) defaultPollRequest = (p, none) := by
  simp [marshalPollRequest, unmarshalPollRequestInto, setStr, defaultPollRequest]

/-- How `encoding/json` marshals a `*BugReport`: nil pointer to
`null`, otherwise the record. -/
def jsonOfReport : Option BugReport → JSON
  | none => .null
  | some r => marshalBugReport r

/-- Decode one `*BugReport` array element: `null` gives a nil
pointer, anything else is unmarshaled into a fresh zero record. -/
def reportElem (j : JSON) : Option BugReport × Option String :=
  match j with
  | .null => (none, none)
  | j' =>
    let r := unmarshalBugReportInto j' defaultBugReport
    (some r.1, r.2)

/-- How `encoding/json` marshals the `Reports []*BugReport` field. -/
def jsonOfReports : Option (List (Option BugReport)) → JSON
  | none => .null
  | some l => .arr (l.map jsonOfReport)

/-- `encoding/json` unmarshaling into the `Reports` field. -/
def setReports (j : JSON) (cur : Option (List (Option BugReport))) :
    Option (List (Option BugReport)) × Option String :=
  match j with
  | .null => (none, none)
  | .arr xs =>
    let decoded := xs.map reportElem
    (some (decoded.map Prod.fst), firstErrAux (decoded.map Prod.snd))
  | _ => (cur, some "json: cannot unmarshal value into Go value of type []*dashapi.BugReport")

/-- Report elements survive the round trip. -/
theorem reportElem_jsonOfReport (o : Option BugReport)
    (h : ∀ r ∈ o, bugReportOk r) :
    reportElem (jsonOfReport o) = (o, none) := by
  match o with
  | none => rfl
  | some r =>
    rw [jsonOfReport, reportElem.eq_def]
    have hr := bugReport_rt r (h r (by simp))
    rw [marshalBugReport] at hr ⊢
    simp [hr]

/-- `json.Marshal` of a `PollResponse`. -/
def marshalPollResponse (p : PollResponse) : JSON :=
  .obj [("Reports", jsonOfReports p.Reports)]

/-- `json.Unmarshal` into a `PollResponse`. -/
def unmarshalPollResponseInto (j : JSON) (v : PollResponse) : PollResponse × Option String :=
  match j with
  | .obj fs =>
    fs.foldl (fun acc kv =>
      if kv.1 = "Reports" then
        let r := setReports kv.2 acc.1.Reports
        ({ acc.1 with Reports := r.1 }, acc.2 <|> r.2)
      else acc) (v, none)
  | .null => (v, none)
  | _ => (v, some "json: cannot unmarshal value into Go value of type dashapi.PollResponse")

/-- Go zero value of `PollResponse`. -/
def defaultPollResponse : PollResponse := ⟨none⟩

/-- All nested reports hold genuine bytes. -/
def pollResponseOk (p : PollResponse) : Prop :=
  ∀ l ∈ p.Reports, ∀ o ∈ l, ∀ r ∈ o, bugReportOk r

instance (p : PollResponse) : Decidable (pollResponseOk p) := by
  unfold pollResponseOk; infer_instance

/-- The `Reports` field survives the round trip. -/
theorem setReports_jsonOfReports (o : Option (List (Option BugReport)))
    (cur : Option (List (Option BugReport)))
    (h : ∀ l ∈ o, ∀ x ∈ l, ∀ r ∈ x, bugReportOk r) :
    setReports (jsonOfReports o) cur = (o, none) := by
  match o with
  | none => rfl
  | some l =>
    rw [jsonOfReports, setReports]
    simp only [List.map_map]
    have hfst : l.map (Prod.fst ∘ reportElem ∘ jsonOfReport) = l.map id := by
      apply List.map_congr_left
      intro x hx
      simp [Function.comp, reportElem_jsonOfReport x (fun r hr => h l (by simp) x hx r hr)]
    have hsnd : l.map (Prod.snd ∘ reportElem ∘ jsonOfReport)
        = l.map (fun _ => (none : Option String)) := by
      apply List.map_congr_left
      intro x hx
      simp [Function.comp, reportElem_jsonOfReport x (fun r hr => h l (by simp) x hx r hr)]
    rw [hfst, hsnd, List.map_id, firstErrAux_map_none]

/-- Round trip for `PollResponse`. -/
theorem pollResponse_rt (p : PollResponse) (h : pollResponseOk p) :
    unmarshalPollResponseInto (marshalPollResponse p) defaultPollResponse = (p, none) := by
  simp [marshalPollResponse, unmarshalPollResponseInto, defaultPollResponse,
    setReports_jsonOfReports _ _ h]

/-- JSON whitespace bytes. -/
def isWS (b : Nat) : Bool := b = 32 || b = 9 || b = 10 || b = 13

/-- Skip JSON whitespace. -/
def skipWS (input : Bytes) : Bytes := input.dropWhile isWS

/-- ASCII digit test on a byte. -/
def isDigitByte (b : Nat) : Bool := 48 ≤ b && b ≤ 57

/-- Consume a run of digits. -/
def parseDigits (input : Bytes) (acc : Nat) : Nat × Bytes :=
  match input with
  | b :: rest => if isDigitByte b then parseDigits rest (acc * 10 + (b - 48)) else (acc, input)
  | [] => (acc, [])

/-- Hex digit value of a byte. -/
def hexVal (b : Nat) : Option Nat :=
  if 48 ≤ b ∧ b ≤ 57 then some (b - 48)
  else if 97 ≤ b ∧ b ≤ 102 then some (b - 87)
  else if 65 ≤ b ∧ b ≤ 70 then some (b - 55)
  else none

/-- Parse the characters of a JSON string literal after the opening
quote, handling the standard escapes (including `\uXXXX`, without
surrogate pairs, which the records here never need). -/
def parseStringChars (input : Bytes) : Option (List Char × Bytes) :=
  match input with
  | 34 :: rest => some ([], rest)
  | 92 :: e :: rest =>
    match e with
    | 34 => (parseStringChars rest).map (fun p => ('"' :: p.1, p.2))
    | 92 => (parseStringChars rest).map (fun p => ('\\' :: p.1, p.2))
    | 47 => (parseStringChars rest).map (fun p => ('/' :: p.1, p.2))
    | 110 => (parseStringChars rest).map (fun p => ('\n' :: p.1, p.2))
    | 116 => (parseStringChars rest).map (fun p => ('\t' :: p.1, p.2))
    | 114 => (parseStringChars rest).map (fun p => ('\r' :: p.1, p.2))
    | 98 => (parseStringChars rest).map (fun p => (Char.ofNat 8 :: p.1, p.2))
    | 102 => (parseStringChars rest).map (fun p => (Char.ofNat 12 :: p.1, p.2))
    | 117 =>
      match rest with
      | h1 :: h2 :: h3 :: h4 :: rest2 =>
        match hexVal h1, hexVal h2, hexVal h3, hexVal h4 with
        | some v1, some v2, some v3, some v4 =>
          (parseStringChars rest2).map (fun p =>
            (Char.ofNat (4096 * v1 + 256 * v2 + 16 * v3 + v4) :: p.1, p.2))
        | _, _, _, _ => none
      | _ => none
    | _ => none
  | b :: rest =>
    if 32 ≤ b then (parseStringChars rest).map (fun p => (Char.ofNat b :: p.1, p.2))
    else none
  | [] => none

mutual
/-- Fuel-indexed JSON parser, modelling the reading side of
`json.NewDecoder(resp.Body).Decode` for the documents the dashboard
exchanges (integer numbers); it consumes one JSON value and returns
the unconsumed rest. -/
def parseValue : Nat → Bytes → Option (JSON × Bytes)
  | 0, _ => none
  | fuel + 1, input =>
    match skipWS input with
    | 110 :: 117 :: 108 :: 108 :: rest => some (.null, rest)
    | 116 :: 114 :: 117 :: 101 :: rest => some (.bool true, rest)
    | 102 :: 97 :: 108 :: 115 :: 101 :: rest => some (.bool false, rest)
    | 34 :: rest => (parseStringChars rest).map (fun p => (.str (String.mk p.1), p.2))
    | 91 :: rest => parseElements fuel (skipWS rest) true
    | 123 :: rest => parseMembers fuel (skipWS rest) true
    | 45 :: b :: rest =>
      if isDigitByte b then
        let p := parseDigits (b :: rest) 0
        some (.num (-(p.1 : Int)), p.2)
      else none
    | b :: rest =>
      if isDigitByte b then
        let p := parseDigits (b :: rest) 0
        some (.num (p.1 : Int), p.2)
      else none
    | [] => none

def parseElements : Nat → Bytes → Bool → Option (JSON × Bytes)
  | 0, _, _ => none
  | fuel + 1, input, isFirst =>
    match input with
    | 93 :: rest => if isFirst then some (.arr [], rest) else none
    | _ =>
      match parseValue fuel input with
      | some (v, rest) =>
        match skipWS rest with
        | 44 :: rest2 =>
          match parseElements fuel (skipWS rest2) false with
          | some (.arr vs, rest3) => some (.arr (v :: vs), rest3)
          | _ => none
        | 93 :: rest2 => some (.arr [v], rest2)
        | _ => none
      | none => none

def parseMembers : Nat → Bytes → Bool → Option (JSON × Bytes)
  | 0, _, _ => none
  | fuel + 1, input, isFirst =>
    match input with
    | 125 :: rest => if isFirst then some (.obj [], rest) else none
    | 34 :: rest =>
      match parseStringChars rest with
      | some (kcs, rest1) =>
        match skipWS rest1 with
        | 58 :: rest2 =>
          match parseValue fuel rest2 with
          | some (v, rest3) =>
            match skipWS rest3 with
            | 44 :: rest4 =>
              match parseMembers fuel (skipWS rest4) false with
              | some (.obj fs, rest5) => some (.obj ((String.mk kcs, v) :: fs), rest5)
              | _ => none
            | 125 :: rest4 => some (.obj [(String.mk kcs, v)], rest4)
            | _ => none
          | none => none
        | _ => none
      | none => none
    | _ => none
end

/-- Parse one JSON value from a body; `json.Decoder.Decode` reads a
single value, so trailing bytes are ignored.  One unit of fuel per
input byte plus one is enough, since every nesting level consumes at
least one byte. -/
def parseJSON (body : Bytes) : Option JSON :=
  (parseValue (body.length + 1) body).map Prod.fst


/-- An argument of `fmt.Sprintf` as used with `LogError` (strings and
integers). -/
inductive FmtArg where
  | str (s : String)
  | int (n : Int)
deriving DecidableEq

/-- Default formatting of one argument (`%v`/`%s`/`%d`). -/
def fmtArgString : FmtArg → String
  | .str s => s
  | .int n => toString n

/-- Core of the `fmt.Sprintf` model: substitute `%s`/`%d`/`%v` verbs
left to right, `%%` literally, missing arguments reported the way Go
does. -/
def sprintfAux : List Char → List FmtArg → List Char
  | '%' :: '%' :: rest, args => '%' :: sprintfAux rest args
  | '%' :: v :: rest, args =>
    if v = 's' ∨ v = 'd' ∨ v = 'v' then
      match args with
      | [] => ("%!".data ++ (v :: "(MISSING)".data)) ++ sprintfAux rest []
      | a :: args2 => (fmtArgString a).data ++ sprintfAux rest args2
    else '%' :: (v :: sprintfAux rest args)
  | c :: rest, args => c :: sprintfAux rest args
  | [], _ => []

/-- Models `fmt.Sprintf` for the verbs `LogError` call sites use. -/
def sprintf (msg : String) (args : List FmtArg) : String :=
  String.mk (sprintfAux msg.data args)

/-- Uppercase hex digit (Go `net/url` percent-escapes use upper
case). -/
def hexDigitU (n : Nat) : Char := "0123456789ABCDEF".data.getD n '0'

/-- Go `url.QueryEscape` on one character: alphanumerics and
`-._~` kept, space to `+`, everything else percent-escaped per UTF-8
byte. -/
def queryEscapeChar (c : Char) : List Char :=
  if c = ' ' then ['+']
  else if c.isAlphanum ∨ c = '-' ∨ c = '_' ∨ c = '.' ∨ c = '~' then [c]
  else (charUtf8 c).flatMap (fun b => ['%', hexDigitU (b / 16), hexDigitU (b % 16)])

/-- Go `url.QueryEscape`. -/
def queryEscape (s : String) : String := String.mk (s.data.flatMap queryEscapeChar)

/-- `url.Values.Encode` for exactly the three parameters `Query` adds
(dashapi.go lines 154-157); `Encode` sorts keys, and
`client < key < method` is already alphabetical. -/
def valuesEncode (client key method : String) : String :=
  "client=" ++ queryEscape client ++ "&key=" ++ queryEscape key ++
    "&method=" ++ queryEscape method

/-- Models `strings.HasPrefix`. -/
def hasPrefixGo (s pre : String) : Bool := pre.data.isPrefixOf s.data

/-- The parts of `http.Request` that `Query` constructs and
inspects: method, URL, optional body bytes, and headers. -/
structure HTTPRequest where
  method : String
  url : String
  body : Option Bytes
  headers : List (String × String)
deriving DecidableEq

/-- The parts of `http.Response` that `Query` inspects: status code,
status line, the body prefix that reading yields, and an optional
read error after that prefix (`ioutil.ReadAll` returns both). -/
structure HTTPResponse where
  statusCode : Nat
  status : String
  bodyPrefix : Bytes
  bodyReadErr : Option String
deriving DecidableEq

/-- dashapi.go line 149: `func(method, url string, body io.Reader)
(*http.Request, error)`. -/
abbrev RequestCtor := String → String → Option Bytes → Except String HTTPRequest

/-- dashapi.go line 150: `func(req *http.Request) (*http.Response,
error)`. -/
abbrev RequestDoer := HTTPRequest → Except String HTTPResponse

/-- The behaviour of `json.NewDecoder(body).Decode(reply)` at the
reply's dynamic type: given the readable body bytes and any read
error after them, update the reply value in place and possibly
report an error. -/
abbrev DecodeInto (R : Type) := Bytes → Option String → R → R × Option String

/-- `http.Header.Set`: replace any existing value for the key. -/
def headerSet (hs : List (String × String)) (k v : String) : List (String × String) :=
  hs.filter (fun p => p.1 != k) ++ [(k, v)]

/-- `http.Header.Get`. -/
def headerGet (hs : List (String × String)) (k : String) : Option String :=
  (hs.find? (fun p => p.1 == k)).map Prod.snd

/-- Models `http.NewRequest` on the URLs `Query` builds: a request
with the given method, URL and body, and no headers.  (On a malformed
address the real constructor can fail; a failing `RequestCtor` value
models that case where needed.) -/
def httpNewRequest : RequestCtor := fun method url body =>
  .ok ⟨method, url, body, []⟩

/-- Go's `%s` conversion of a byte slice into message text (exact for
the ASCII bodies exercised here). -/
def bytesToString (bs : Bytes) : String := String.mk (bs.map Char.ofNat)

/-- Observable outcome of one `Query` call: the returned error (Go's
`error` result), the single request handed to the `RequestDoer` (if
any), and the final state of the caller's reply value. -/
structure QueryResult (R : Type) where
  error : Option String
  sentReq : Option HTTPRequest
  finalReply : Option R
deriving DecidableEq

/-- dashapi.go lines 198-207: non-200 statuses become the remote
error carrying status line and body text (the body read error is
discarded); on 200 the reply, if requested, is decoded in place. -/
def queryResp {R : Type} (r1 : HTTPRequest) (resp : HTTPResponse)
    (reply : Option (R × DecodeInto R)) : QueryResult R :=
  if resp.statusCode ≠ 200 then
    ⟨some ("request failed with " ++ resp.status ++ ": " ++ bytesToString resp.bodyPrefix),
      some r1, reply.map Prod.fst⟩
  else
    match reply with
    | none => ⟨none, some r1, none⟩
    | some (v0, dec) =>
      match dec resp.bodyPrefix resp.bodyReadErr v0 with
      | (v1, some e) => ⟨some ("failed to unmarshal response: " ++ e), some r1, some v1⟩
      | (v1, none) => ⟨none, some r1, some v1⟩

/-- dashapi.go lines 193-196: run the HTTP round trip; a transport
failure is wrapped as `http request failed`. -/
def queryExec {R : Type} (doer : RequestDoer) (r1 : HTTPRequest)
    (reply : Option (R × DecodeInto R)) : QueryResult R :=
  match doer r1 with
  | .error e => ⟨some ("http request failed: " ++ e), some r1, reply.map Prod.fst⟩
  | .ok resp => queryResp r1 resp reply

/-- dashapi.go lines 182-192: build the URL, construct the request
(returning a constructor error verbatim), and set `Content-Type` and,
when compressed, `Content-Encoding` if a body is present. -/
def querySend {R : Type} (client addr key method : String) (ctor : RequestCtor)
    (doer : RequestDoer) (body : Option Bytes) (gzipped : Bool)
    (reply : Option (R × DecodeInto R)) : QueryResult R :=
  match ctor "POST" (addr ++ "/api?" ++ valuesEncode client key method) body with
  | .error e => ⟨some e, none, reply.map Prod.fst⟩
  | .ok r0 =>
    let r1 :=
      if body.isSome then
        let rA := { r0 with headers := headerSet r0.headers "Content-Type" "application/json" }
        if gzipped then
          { rA with headers := headerSet rA.headers "Content-Encoding" "gzip" }
        else rA
      else r0
    queryExec doer r1 reply

/-- dashapi.go line 165: requests under 100 bytes, to an empty
address, or to the dev_appserver loopback prefix are not
compressed. -/
def smallOrLocal (addr : String) (data : Bytes) : Bool :=
  decide (data.length < 100) || (addr == "") || hasPrefixGo addr "http://localhost:"

/-- dashapi.go lines 153-207: the transport function.  `req`/`reply`
mirror the two `interface` parameters: an optional payload with the
`json.Marshal` behaviour at its type, and an optional initial reply
value with the `Decode` behaviour at its type.  The gzip write and
close error returns of lines 172-177 have no counterpart here: the
sink is an in-memory `bytes.Buffer`, whose writes never fail. -/
def Query {A R : Type} (client addr key method : String) (ctor : RequestCtor)
    (doer : RequestDoer) (req : Option A) (jsonMarshalA : A → Except String Bytes)
    (reply : Option (R × DecodeInto R)) : QueryResult R :=
  match req with
  | none => querySend client addr key method ctor doer none false reply
  | some x =>
    match jsonMarshalA x with
    | .error e => ⟨some ("failed to marshal request: " ++ e), none, reply.map Prod.fst⟩
    | .ok data =>
      if smallOrLocal addr data then
        querySend client addr key method ctor doer (some data) false reply
      else
        querySend client addr key method ctor doer (some (gzipCompress data)) true reply

/-- Build the `Decode` behaviour for a concrete reply type from a
parser and a typed unmarshal: a body that does not parse as one JSON
value reports the pending read error, if any, else a syntax error. -/
def decodeViaJSON {R : Type} (unm : JSON → R → R × Option String) : DecodeInto R :=
  fun body readErr v =>
    match parseJSON body with
    | some j => unm j v
    | none => (v, some (readErr.getD "invalid JSON input"))

/-- `Decode` behaviour at type `LogEntry`. -/
def decodeLogEntryInto : DecodeInto LogEntry := decodeViaJSON unmarshalLogEntryInto

/-- `Decode` behaviour at type `PollResponse`. -/
def decodePollResponseInto : DecodeInto PollResponse := decodeViaJSON unmarshalPollResponseInto

/-- dashapi.go lines 20-24: the client facade's identity fields. -/
structure Dashboard where
  Client : String
  Addr : String
  Key : String
deriving DecidableEq

/-- dashapi.go lines 26-32. -/
def New (client addr key : String) : Dashboard := ⟨client, addr, key⟩

/-- `json.Marshal` at type `*Build` (it cannot fail on these record
types, hence always `ok`). -/
def marshalBuildBytes (b : Build) : Except String Bytes :=
  .ok (strToBytes (jsonSerialize (marshalBuild b)))

/-- `json.Marshal` at type `*Crash`. -/
def marshalCrashBytes (c : Crash) : Except String Bytes :=
  .ok (strToBytes (jsonSerialize (marshalCrash c)))

/-- `json.Marshal` at type `*FailedRepro`. -/
def marshalFailedReproBytes (f : FailedRepro) : Except String Bytes :=
  .ok (strToBytes (jsonSerialize (marshalFailedRepro f)))

/-- `json.Marshal` at type `*LogEntry`. -/
def marshalLogEntryBytes (e : LogEntry) : Except String Bytes :=
  .ok (strToBytes (jsonSerialize (marshalLogEntry e)))

/-- `json.Marshal` at type `*PollRequest`. -/
def marshalPollRequestBytes (p : PollRequest) : Except String Bytes :=
  .ok (strToBytes (jsonSerialize (marshalPollRequest p)))

/-- `json.Marshal` at type `*BugUpdate`. -/
def marshalBugUpdateBytes (u : BugUpdate) : Except String Bytes :=
  .ok (strToBytes (jsonSerialize (marshalBugUpdate u)))

/-- dashapi.go lines 143-146: every facade operation goes through
`Query` with the facade's identity and `http.NewRequest`; the
ambient `http.DefaultClient.Do` becomes the explicit `doer`. -/
def Dashboard.query {A R : Type} (d : Dashboard) (doer : RequestDoer) (method : String)
    (req : Option A) (jm : A → Except String Bytes)
    (reply : Option (R × DecodeInto R)) : QueryResult R :=
  Query d.Client d.Addr d.Key method httpNewRequest doer req jm reply

/-- dashapi.go lines 46-48. -/
def Dashboard.UploadBuild (d : Dashboard) (doer : RequestDoer) (build : Build) : Option String :=
  (d.query doer "upload_build" (some build) marshalBuildBytes
    (none : Option (Unit × DecodeInto Unit))).error

/-- dashapi.go lines 63-65. -/
def Dashboard.ReportCrash (d : Dashboard) (doer : RequestDoer) (crash : Crash) : Option String :=
  (d.query doer "report_crash" (some crash) marshalCrashBytes
    (none : Option (Unit × DecodeInto Unit))).error

/-- dashapi.go lines 74-76. -/
def Dashboard.ReportFailedRepro (d : Dashboard) (doer : RequestDoer)
    (repro : FailedRepro) : Option String :=
  (d.query doer "report_failed_repro" (some repro) marshalFailedReproBytes
    (none : Option (Unit × DecodeInto Unit))).error

/-- The query `LogError` performs (dashapi.go lines 84-90): the
message is formatted before sending. -/
def Dashboard.logErrorQuery (d : Dashboard) (doer : RequestDoer) (name msg : String)
    (args : List FmtArg) : QueryResult Unit :=
  d.query doer "log_error" (some (LogEntry.mk name (sprintf msg args)))
    marshalLogEntryBytes (none : Option (Unit × DecodeInto Unit))

/-- dashapi.go lines 84-90: best-effort centralized logging; the
query's error is discarded and nothing is returned. -/
def Dashboard.LogError (d : Dashboard) (doer : RequestDoer) (name msg : String)
    (args : List FmtArg) : Unit :=
  let _ := d.logErrorQuery doer name msg args
  ()

/-- Modelled from the spec: the source under src/ does not define
`Poll`; the spec lists it as implied by the data model for a complete
client (`Poll(PollRequest) -> PollResponse | Error`), using the same
`query` pattern as the other operations with a fixed (opaque) method
name. -/
def Dashboard.Poll (d : Dashboard) (doer : RequestDoer) (req : PollRequest) :
    Except String PollResponse :=
  let q := d.query doer "poll" (some req) marshalPollRequestBytes
    (some (defaultPollResponse, decodePollResponseInto))
  match q.error with
  | some e => .error e
  | none => .ok (q.finalReply.getD defaultPollResponse)

/-- Modelled from the spec: the source under src/ does not define
`UpdateBug`; the spec lists it as implied by the data model
(`UpdateBug(BugUpdate) -> Error?`), using the same `query` pattern as
the other operations with a fixed (opaque) method name. -/
def Dashboard.UpdateBug (d : Dashboard) (doer : RequestDoer) (upd : BugUpdate) : Option String :=
  (d.query doer "update_bug" (some upd) marshalBugUpdateBytes
    (none : Option (Unit × DecodeInto Unit))).error

/-- The response stage records the request that was executed. -/
theorem queryResp_sentReq {R : Type} (r1 : HTTPRequest) (resp : HTTPResponse)
    (reply : Option (R × DecodeInto R)) :
    (queryResp r1 resp reply).sentReq = some r1 := by
  rw [queryResp.eq_def]
  split
  · rfl
  · cases reply with
    | none => rfl
    | some p =>
      obtain ⟨v0, dec⟩ := p
      dsimp only
      rcases dec resp.bodyPrefix resp.bodyReadErr v0 with ⟨v1, _ | e⟩ <;> rfl

/-- Once the transport stage is reached, exactly the one executed
request is recorded, whatever the transport does. -/
theorem queryExec_sentReq {R : Type} (doer : RequestDoer) (r1 : HTTPRequest)
    (reply : Option (R × DecodeInto R)) :
    (queryExec doer r1 reply).sentReq = some r1 := by
  rw [queryExec]
  match doer r1 with
  | .error e => rfl
  | .ok resp => exact queryResp_sentReq r1 resp reply

/-- With the standard request constructor, the sent request is fully
determined: POST, the `/api` URL, the given body, and headers per the
body/compression case. -/
theorem querySend_httpNewRequest {R : Type} (client addr key method : String)
    (doer : RequestDoer) (body : Option Bytes) (gzipped : Bool)
    (reply : Option (R × DecodeInto R)) :
    querySend client addr key method httpNewRequest doer body gzipped reply =
      queryExec doer
        ⟨"POST", addr ++ "/api?" ++ valuesEncode client key method, body,
          if body.isSome then
            (if gzipped then
              [("Content-Type", "application/json"), ("Content-Encoding", "gzip")]
            else [("Content-Type", "application/json")])
          else []⟩ reply := by
  cases body <;> cases gzipped <;> rfl

/-- The compression guard, spelled as the disjunction of dashapi.go
line 165. -/
theorem smallOrLocal_iff (addr : String) (data : Bytes) :
    smallOrLocal addr data = true ↔
      (data.length < 100 ∨ addr = "" ∨ hasPrefixGo addr "http://localhost:" = true) := by
  simp [smallOrLocal, Bool.or_eq_true, decide_eq_true_iff, beq_iff_eq, or_assoc]

/-- C1: for a `Query` call with a non-nil request payload whose JSON
serialization succeeds, the compression policy of dashapi.go lines
160-180 and 187-192 holds: if the serialized payload is shorter than
100 bytes, or the address is empty, or the address starts with
`http://localhost:`, the body passed to the transport is the plain
serialized payload and no `Content-Encoding` header is set; otherwise
the body is the gzip compression of the payload, `Content-Encoding:
gzip` is set, and decompressing the body reproduces the serialized
payload byte-for-byte. -/
theorem query_compression_policy {A R : Type} (client addr key method : String)
    (doer : RequestDoer) (x : A) (jm : A → Except String Bytes) (data : Bytes)
    (reply : Option (R × DecodeInto R)) (hjm : jm x = Except.ok data) :
    ∃ r, (Query client addr key method httpNewRequest doer (some x) jm reply).sentReq
        = some r ∧
      ((data.length < 100 ∨ addr = "" ∨ hasPrefixGo addr "http://localhost:" = true) →
        r.body = some data ∧ headerGet r.headers "Content-Encoding" = none) ∧
      (¬ (data.length < 100 ∨ addr = "" ∨ hasPrefixGo addr "http://localhost:" = true) →
        r.body = some (gzipCompress data) ∧
        headerGet r.headers "Content-Encoding" = some "gzip" ∧
        gzipDecompress r.body.iget = some data) := by
  rw [Query, hjm]
  dsimp only
  by_cases hc : smallOrLocal addr data = true
  · rw [if_pos hc]
    rw [querySend_httpNewRequest]
    refine ⟨_, queryExec_sentReq _ _ _, fun _ => ⟨rfl, rfl⟩, fun hn => absurd ?_ hn⟩
    exact (smallOrLocal_iff addr data).mp hc
  · rw [if_neg hc]
    rw [querySend_httpNewRequest]
    refine ⟨_, queryExec_sentReq _ _ _, fun hp => absurd ((smallOrLocal_iff addr data).mpr hp) hc,
      fun _ => ⟨rfl, rfl, ?_⟩⟩
    exact gzipDecompress_gzipCompress data

/-- C1 witness: both compression branches at concrete inputs; the
large-payload branch really gzips (150 bytes to a non-local address)
and the small-payload branch really stays plain. -/
theorem query_compression_policy_witness :
    (∃ r, (Query "client" "https://syzkaller.appspot.com" "key" "upload_build"
        httpNewRequest (fun _ => Except.error "offline") (some ())
        (fun _ => Except.ok (List.replicate 150 65)) (none : Option (Unit × DecodeInto Unit))).sentReq
        = some r ∧
      ((((List.replicate 150 65 : Bytes)).length < 100 ∨ "https://syzkaller.appspot.com" = "" ∨
          hasPrefixGo "https://syzkaller.appspot.com" "http://localhost:" = true) →
        r.body = some (List.replicate 150 65) ∧ headerGet r.headers "Content-Encoding" = none) ∧
      (¬ (((List.replicate 150 65 : Bytes)).length < 100 ∨ "https://syzkaller.appspot.com" = "" ∨
          hasPrefixGo "https://syzkaller.appspot.com" "http://localhost:" = true) →
        r.body = some (gzipCompress (List.replicate 150 65)) ∧
        headerGet r.headers "Content-Encoding" = some "gzip" ∧
        gzipDecompress r.body.iget = some (List.replicate 150 65))) ∧
    (∃ r, (Query "client" "http://localhost:8080" "key" "upload_build"
        httpNewRequest (fun _ => Except.error "offline") (some ())
        (fun _ => Except.ok (List.replicate 150 65)) (none : Option (Unit × DecodeInto Unit))).sentReq
        = some r ∧
      ((((List.replicate 150 65 : Bytes)).length < 100 ∨ "http://localhost:8080" = "" ∨
          hasPrefixGo "http://localhost:8080" "http://localhost:" = true) →
        r.body = some (List.replicate 150 65) ∧ headerGet r.headers "Content-Encoding" = none) ∧
      (¬ (((List.replicate 150 65 : Bytes)).length < 100 ∨ "http://localhost:8080" = "" ∨
          hasPrefixGo "http://localhost:8080" "http://localhost:" = true) →
        r.body = some (gzipCompress (List.replicate 150 65)) ∧
        headerGet r.headers "Content-Encoding" = some "gzip" ∧
        gzipDecompress r.body.iget = some (List.replicate 150 65))) :=
  ⟨query_compression_policy "client" "https://syzkaller.appspot.com" "key" "upload_build"
      (fun _ => Except.error "offline") () (fun _ => Except.ok (List.replicate 150 65))
      (List.replicate 150 65) (none : Option (Unit × DecodeInto Unit)) rfl,
    query_compression_policy "client" "http://localhost:8080" "key" "upload_build"
      (fun _ => Except.error "offline") () (fun _ => Except.ok (List.replicate 150 65))
      (List.replicate 150 65) (none : Option (Unit × DecodeInto Unit)) rfl⟩

/-- When marshaling and request construction succeed, `Query` reduces
to the transport stage on some request. -/
theorem query_reaches_doer {A R : Type} (client addr key method : String)
    (ctor : RequestCtor) (doer : RequestDoer) (req : Option A)
    (jm : A → Except String Bytes) (reply : Option (R × DecodeInto R))
    (hm : ∀ x, req = some x → ∃ d, jm x = Except.ok d)
    (hctor : ∀ m u b, ∃ r, ctor m u b = Except.ok r) :
    ∃ r1, Query client addr key method ctor doer req jm reply = queryExec doer r1 reply := by
  have hsend : ∀ (body : Option Bytes) (gz : Bool),
      ∃ r1, querySend client addr key method ctor doer body gz reply
        = queryExec doer r1 reply := by
    intro body gz
    obtain ⟨r0, hr0⟩ := hctor "POST" (addr ++ "/api?" ++ valuesEncode client key method) body
    rw [querySend, hr0]
    exact ⟨_, rfl⟩
  cases req with
  | none =>
    rw [Query]
    exact hsend none false
  | some x =>
    obtain ⟨d, hd⟩ := hm x rfl
    rw [Query, hd]
    dsimp only
    by_cases hc : smallOrLocal addr d = true
    · rw [if_pos hc]; exact hsend (some d) false
    · rw [if_neg hc]; exact hsend (some (gzipCompress d)) true

/-- C2: whenever the HTTP round trip completes with a non-200 status,
`Query` returns the remote-failure error of dashapi.go lines 198-201,
whose text contains both the status line and the response body text,
and the caller's reply value is not decoded into (it keeps its initial
value). -/
theorem query_remote_error {A R : Type} (client addr key method : String)
    (ctor : RequestCtor) (doer : RequestDoer) (req : Option A)
    (jm : A → Except String Bytes) (reply : Option (R × DecodeInto R))
    (resp : HTTPResponse)
    (hm : ∀ x, req = some x → ∃ d, jm x = Except.ok d)
    (hctor : ∀ m u b, ∃ r, ctor m u b = Except.ok r)
    (hdoer : ∀ r, doer r = Except.ok resp)
    (hstatus : resp.statusCode ≠ 200) :
    ∃ msg, (Query client addr key method ctor doer req jm reply).error = some msg ∧
      resp.status.data <:+: msg.data ∧
      (bytesToString resp.bodyPrefix).data <:+: msg.data ∧
      (Query client addr key method ctor doer req jm reply).finalReply
        = reply.map Prod.fst := by
  obtain ⟨r1, hq⟩ := query_reaches_doer client addr key method ctor doer req jm reply hm hctor
  rw [hq, queryExec, hdoer r1]
  dsimp only
  rw [queryResp.eq_def, if_pos hstatus]
  refine ⟨_, rfl, ?_, ?_, rfl⟩
  · refine ⟨"request failed with ".data, (": " ++ bytesToString resp.bodyPrefix).data, ?_⟩
    simp [String.data_append]
  · refine ⟨("request failed with " ++ resp.status ++ ": ").data, [], ?_⟩
    simp [String.data_append]

/-- C2 witness: a 500 response with body `internal error` yields an
error whose text contains `internal error`. -/
theorem query_remote_error_witness :
    ∃ msg, (Query "client" "addr" "key" "method" httpNewRequest
        (fun _ => Except.ok ⟨500, "500 Internal Server Error", strToBytes "internal error", none⟩)
        (none : Option Unit) (fun _ => Except.error "")
        (none : Option (Unit × DecodeInto Unit))).error = some msg ∧
      ("500 Internal Server Error" : String).data <:+: msg.data ∧
      (bytesToString (strToBytes "internal error")).data <:+: msg.data ∧
      (Query "client" "addr" "key" "method" httpNewRequest
        (fun _ => Except.ok ⟨500, "500 Internal Server Error", strToBytes "internal error", none⟩)
        (none : Option Unit) (fun _ => Except.error "")
        (none : Option (Unit × DecodeInto Unit))).finalReply
        = (none : Option (Unit × DecodeInto Unit)).map Prod.fst :=
  query_remote_error "client" "addr" "key" "method" httpNewRequest
    (fun _ => Except.ok ⟨500, "500 Internal Server Error", strToBytes "internal error", none⟩)
    (none : Option Unit) (fun _ => Except.error "")
    (none : Option (Unit × DecodeInto Unit))
    ⟨500, "500 Internal Server Error", strToBytes "internal error", none⟩
    (fun x h => nomatch h) (fun m u b => ⟨_, rfl⟩) (fun _ => rfl) (by decide)

/-- C10: on a non-200 response the remote error is returned even when
reading the diagnostic body fails: dashapi.go line 199 discards the
`ReadAll` error, and the message carries whatever prefix of the body
was read, for any value of the read error. -/
theorem query_remote_error_ignores_read_failure {A R : Type}
    (client addr key method : String) (ctor : RequestCtor) (req : Option A)
    (jm : A → Except String Bytes) (reply : Option (R × DecodeInto R))
    (code : Nat) (st : String) (bodyPre : Bytes) (readE : Option String)
    (hm : ∀ x, req = some x → ∃ d, jm x = Except.ok d)
    (hctor : ∀ m u b, ∃ r, ctor m u b = Except.ok r)
    (hstatus : code ≠ 200) :
    (Query client addr key method ctor
        (fun _ => Except.ok ⟨code, st, bodyPre, readE⟩) req jm reply).error
      = some ("request failed with " ++ st ++ ": " ++ bytesToString bodyPre) := by
  obtain ⟨r1, hq⟩ := query_reaches_doer client addr key method ctor
    (fun _ => Except.ok ⟨code, st, bodyPre, readE⟩) req jm reply hm hctor
  rw [hq, queryExec]
  dsimp only
  rw [queryResp.eq_def, if_pos hstatus]

/-- C10 witness: a 502 response whose body read stops after a prefix
with a read error still produces the remote error carrying the
prefix. -/
theorem query_remote_error_ignores_read_failure_witness :
    (Query "client" "addr" "key" "method" httpNewRequest
        (fun _ => Except.ok ⟨502, "502 Bad Gateway", strToBytes "inter", some "unexpected EOF"⟩)
        (none : Option Unit) (fun _ => Except.error "")
        (none : Option (Unit × DecodeInto Unit))).error
      = some ("request failed with " ++ "502 Bad Gateway" ++ ": " ++ bytesToString (strToBytes "inter")) :=
  query_remote_error_ignores_read_failure "client" "addr" "key" "method" httpNewRequest
    (none : Option Unit) (fun _ => Except.error "")
    (none : Option (Unit × DecodeInto Unit)) 502 "502 Bad Gateway"
    (strToBytes "inter") (some "unexpected EOF")
    (fun x h => nomatch h) (fun m u b => ⟨_, rfl⟩) (by decide)

/-- C3: with a 200 response, a non-nil reply value whose JSON decoding
fails makes `Query` return the decoding error of dashapi.go lines
202-206 (never a silent default), while a nil reply value makes
`Query` ignore the body and return no error. -/
theorem query_decode_behavior {A R : Type} (client addr key method : String)
    (ctor : RequestCtor) (doer : RequestDoer) (req : Option A)
    (jm : A → Except String Bytes) (v0 : R) (dec : DecodeInto R)
    (resp : HTTPResponse) (v1 : R) (e : String)
    (hm : ∀ x, req = some x → ∃ d, jm x = Except.ok d)
    (hctor : ∀ m u b, ∃ r, ctor m u b = Except.ok r)
    (hdoer : ∀ r, doer r = Except.ok resp)
    (hstatus : resp.statusCode = 200)
    (hdec : dec resp.bodyPrefix resp.bodyReadErr v0 = (v1, some e)) :
    (Query client addr key method ctor doer req jm (some (v0, dec))).error
        = some ("failed to unmarshal response: " ++ e) ∧
    (Query client addr key method ctor doer req jm
        (none : Option (Unit × DecodeInto Unit))).error = none := by
  constructor
  · obtain ⟨r1, hq⟩ := query_reaches_doer client addr key method ctor doer req jm
      (some (v0, dec)) hm hctor
    rw [hq, queryExec, hdoer r1]
    dsimp only
    rw [queryResp.eq_def, if_neg (by omega : ¬ resp.statusCode ≠ 200)]
    dsimp only
    rw [hdec]
  · obtain ⟨r1, hq⟩ := query_reaches_doer client addr key method ctor doer req jm
      (none : Option (Unit × DecodeInto Unit)) hm hctor
    rw [hq, queryExec, hdoer r1]
    dsimp only
    rw [queryResp.eq_def, if_neg (by omega : ¬ resp.statusCode ≠ 200)]

/-- C3 witness: decoding a truncated JSON document (`{"Name":`) into a
`LogEntry` reply yields the decoding error; the same response with a
nil reply yields no error. -/
theorem query_decode_behavior_witness :
    (Query "client" "addr" "key" "method" httpNewRequest
        (fun _ => Except.ok ⟨200, "200 OK", strToBytes "\x7b\"Name\":", none⟩)
        (none : Option Unit) (fun _ => Except.error "")
        (some ((⟨"", ""⟩ : LogEntry), decodeLogEntryInto))).error
        = some ("failed to unmarshal response: " ++ "invalid JSON input") ∧
    (Query "client" "addr" "key" "method" httpNewRequest
        (fun _ => Except.ok ⟨200, "200 OK", strToBytes "\x7b\"Name\":", none⟩)
        (none : Option Unit) (fun _ => Except.error "")
        (none : Option (Unit × DecodeInto Unit))).error = none :=
  query_decode_behavior "client" "addr" "key" "method" httpNewRequest
    (fun _ => Except.ok ⟨200, "200 OK", strToBytes "\x7b\"Name\":", none⟩)
    (none : Option Unit) (fun _ => Except.error "")
    (⟨"", ""⟩ : LogEntry) decodeLogEntryInto
    ⟨200, "200 OK", strToBytes "\x7b\"Name\":", none⟩ ⟨"", ""⟩ "invalid JSON input"
    (fun x h => nomatch h) (fun m u b => ⟨_, rfl⟩) (fun _ => rfl) rfl (by rfl)

/-- C6 counterexample: the claim says every error of `Query` arises
from one of the four taxonomy causes, but the request-constructor
failure path of dashapi.go lines 183-185 returns the constructor's
error verbatim (here the URL-parse failure `http.NewRequest` produces
for a malformed address), which matches none of the four error
shapes. -/
theorem query_error_taxonomy_counterexample :
    (Query "c" ":" "k" "m"
        (fun _ _ _ => Except.error "parse \"://api\": missing protocol scheme")
        (fun _ => Except.error "unreachable") (none : Option Unit)
        (fun _ => Except.error "") (none : Option (Unit × DecodeInto Unit))).error
      = some "parse \"://api\": missing protocol scheme" ∧
    ("failed to marshal request: ".data.isPrefixOf
        "parse \"://api\": missing protocol scheme".data = false) ∧
    ("http request failed: ".data.isPrefixOf
        "parse \"://api\": missing protocol scheme".data = false) ∧
    ("request failed with ".data.isPrefixOf
        "parse \"://api\": missing protocol scheme".data = false) ∧
    ("failed to unmarshal response: ".data.isPrefixOf
        "parse \"://api\": missing protocol scheme".data = false) := by
  refine ⟨rfl, by decide, by decide, by decide, by decide⟩

/-- C6 amended: every error `Query` returns arises from one of five
causes: the four of the taxonomy (serialization, transport, non-200
response, reply decoding) plus the request-constructor failure of
dashapi.go lines 183-185, whose error is returned verbatim. -/
theorem query_error_taxonomy {A R : Type} (client addr key method : String)
    (ctor : RequestCtor) (doer : RequestDoer) (req : Option A)
    (jm : A → Except String Bytes) (reply : Option (R × DecodeInto R)) (e : String)
    (he : (Query client addr key method ctor doer req jm reply).error = some e) :
    (∃ m, e = "failed to marshal request: " ++ m) ∨
    (∃ u b, ctor "POST" u b = Except.error e) ∨
    (∃ m, e = "http request failed: " ++ m) ∨
    (∃ st bd, e = "request failed with " ++ st ++ ": " ++ bd) ∨
    (∃ m, e = "failed to unmarshal response: " ++ m) := by
  have htail : ∀ (body : Option Bytes) (gz : Bool),
      (querySend client addr key method ctor doer body gz reply).error = some e →
      (∃ u b, ctor "POST" u b = Except.error e) ∨
      (∃ m, e = "http request failed: " ++ m) ∨
      (∃ st bd, e = "request failed with " ++ st ++ ": " ++ bd) ∨
      (∃ m, e = "failed to unmarshal response: " ++ m) := by
    intro body gz hs
    rw [querySend] at hs
    rcases hctorres : ctor "POST" (addr ++ "/api?" ++ valuesEncode client key method) body with
      cerr | r0
    · rw [hctorres] at hs
      dsimp only at hs
      have hce : cerr = e := Option.some.inj hs
      subst hce
      exact Or.inl ⟨_, _, hctorres⟩
    · rw [hctorres] at hs
      dsimp only at hs
      rw [queryExec] at hs
      rcases hd : doer _ with derr | resp
      · rw [hd] at hs
        dsimp only at hs
        exact Or.inr (Or.inl ⟨derr, (Option.some.inj hs).symm⟩)
      · rw [hd] at hs
        dsimp only at hs
        rw [queryResp.eq_def] at hs
        by_cases hst : resp.statusCode ≠ 200
        · rw [if_pos hst] at hs
          exact Or.inr (Or.inr (Or.inl ⟨_, _, (Option.some.inj hs).symm⟩))
        · rw [if_neg hst] at hs
          cases reply with
          | none => simp at hs
          | some p =>
            obtain ⟨v0, dec⟩ := p
            dsimp only at hs
            rcases hdd : dec resp.bodyPrefix resp.bodyReadErr v0 with ⟨v1, _ | de⟩ <;>
              rw [hdd] at hs
            · simp at hs
            · exact Or.inr (Or.inr (Or.inr ⟨de, (Option.some.inj hs).symm⟩))
  cases req with
  | none =>
    rw [Query] at he
    exact Or.inr (htail none false he)
  | some x =>
    rw [Query] at he
    rcases hjm : jm x with merr | d
    · rw [hjm] at he
      dsimp only at he
      exact Or.inl ⟨merr, (Option.some.inj he).symm⟩
    · rw [hjm] at he
      dsimp only at he
      by_cases hc : smallOrLocal addr d = true
      · rw [if_pos hc] at he
        exact Or.inr (htail (some d) false he)
      · rw [if_neg hc] at he
        exact Or.inr (htail (some (gzipCompress d)) true he)

/-- Exhaustive case analysis of the response stage. -/
theorem queryResp_spec {R : Type} (r1 : HTTPRequest) (resp : HTTPResponse)
    (reply : Option (R × DecodeInto R)) :
    (resp.statusCode ≠ 200 ∧ queryResp r1 resp reply =
      ⟨some ("request failed with " ++ resp.status ++ ": " ++ bytesToString resp.bodyPrefix),
        some r1, reply.map Prod.fst⟩) ∨
    (resp.statusCode = 200 ∧ reply = none ∧
      queryResp r1 resp reply = ⟨none, some r1, none⟩) ∨
    (∃ v0 dec, reply = some (v0, dec) ∧ resp.statusCode = 200 ∧
      ((∃ v1 e, dec resp.bodyPrefix resp.bodyReadErr v0 = (v1, some e) ∧
        queryResp r1 resp reply =
          ⟨some ("failed to unmarshal response: " ++ e), some r1, some v1⟩) ∨
       (∃ v1, dec resp.bodyPrefix resp.bodyReadErr v0 = (v1, none) ∧
        queryResp r1 resp reply = ⟨none, some r1, some v1⟩))) := by
  by_cases hst : resp.statusCode ≠ 200
  · exact Or.inl ⟨hst, by rw [queryResp.eq_def, if_pos hst]⟩
  · have h200 : resp.statusCode = 200 := by omega
    cases reply with
    | none =>
      exact Or.inr (Or.inl ⟨h200, rfl, by rw [queryResp.eq_def, if_neg hst]⟩)
    | some p =>
      obtain ⟨v0, dec⟩ := p
      refine Or.inr (Or.inr ⟨v0, dec, rfl, h200, ?_⟩)
      rcases hdd : dec resp.bodyPrefix resp.bodyReadErr v0 with ⟨v1, _ | de⟩
      · exact Or.inr ⟨v1, rfl, by rw [queryResp.eq_def, if_neg hst]; dsimp only; rw [hdd]⟩
      · exact Or.inl ⟨v1, de, rfl, by rw [queryResp.eq_def, if_neg hst]; dsimp only; rw [hdd]⟩

/-- Exhaustive case analysis of the transport stage. -/
theorem queryExec_spec {R : Type} (doer : RequestDoer) (r1 : HTTPRequest)
    (reply : Option (R × DecodeInto R)) :
    (∃ e, doer r1 = Except.error e ∧ queryExec doer r1 reply =
      ⟨some ("http request failed: " ++ e), some r1, reply.map Prod.fst⟩) ∨
    (∃ resp, doer r1 = Except.ok resp ∧
      queryExec doer r1 reply = queryResp r1 resp reply) := by
  rcases hd : doer r1 with e | resp
  · exact Or.inl ⟨e, rfl, by rw [queryExec, hd]⟩
  · exact Or.inr ⟨resp, rfl, by rw [queryExec, hd]⟩

/-- Exhaustive case analysis of the send stage. -/
theorem querySend_spec {R : Type} (client addr key method : String) (ctor : RequestCtor)
    (doer : RequestDoer) (body : Option Bytes) (gz : Bool)
    (reply : Option (R × DecodeInto R)) :
    (∃ e, ctor "POST" (addr ++ "/api?" ++ valuesEncode client key method) body
        = Except.error e ∧
      querySend client addr key method ctor doer body gz reply
        = ⟨some e, none, reply.map Prod.fst⟩) ∨
    (∃ r1, ctor "POST" (addr ++ "/api?" ++ valuesEncode client key method) body
        = Except.ok r1 ∧
      querySend client addr key method ctor doer body gz reply
        = queryExec doer
            (if body.isSome then
              (if gz then
                { r1 with headers :=
                    headerSet (headerSet r1.headers "Content-Type" "application/json") "Content-Encoding" "gzip" }
              else
                { r1 with headers := headerSet r1.headers "Content-Type" "application/json" })
            else r1) reply) := by
  rcases hct : ctor "POST" (addr ++ "/api?" ++ valuesEncode client key method) body with
    e | r0
  · exact Or.inl ⟨e, rfl, by rw [querySend, hct]⟩
  · exact Or.inr ⟨r0, rfl, by rw [querySend, hct]⟩

/-- Exhaustive case analysis of the marshal/compress stage. -/
theorem Query_spec {A R : Type} (client addr key method : String) (ctor : RequestCtor)
    (doer : RequestDoer) (req : Option A) (jm : A → Except String Bytes)
    (reply : Option (R × DecodeInto R)) :
    (∃ x m, req = some x ∧ jm x = Except.error m ∧
      Query client addr key method ctor doer req jm reply
        = ⟨some ("failed to marshal request: " ++ m), none, reply.map Prod.fst⟩) ∨
    (∃ body gz, Query client addr key method ctor doer req jm reply
        = querySend client addr key method ctor doer body gz reply) := by
  cases req with
  | none => exact Or.inr ⟨none, false, by rw [Query]⟩
  | some x =>
    rcases hjm : jm x with m | d
    · exact Or.inl ⟨x, m, rfl, hjm, by rw [Query, hjm]⟩
    · by_cases hc : smallOrLocal addr d = true
      · exact Or.inr ⟨some d, false, by rw [Query, hjm]; dsimp only; rw [if_pos hc]⟩
      · exact Or.inr ⟨some (gzipCompress d), true, by rw [Query, hjm]; dsimp only; rw [if_neg hc]⟩

/-- C6 amended witness: a failing transport instantiates the taxonomy
at a concrete error. -/
theorem query_error_taxonomy_witness :
    (∃ m, "http request failed: down" = "failed to marshal request: " ++ m) ∨
    (∃ u b, httpNewRequest "POST" u b = Except.error "http request failed: down") ∨
    (∃ m, "http request failed: down" = "http request failed: " ++ m) ∨
    (∃ st bd, "http request failed: down" = "request failed with " ++ st ++ ": " ++ bd) ∨
    (∃ m, "http request failed: down" = "failed to unmarshal response: " ++ m) :=
  query_error_taxonomy "c" "a" "k" "m" httpNewRequest (fun _ => Except.error "down")
    (none : Option Unit) (fun _ => Except.error "")
    (none : Option (Unit × DecodeInto Unit)) "http request failed: down" rfl

/-- C7 counterexample: the claim says an erroring `Query` leaves the
reply unmodified, but Go's JSON decoder partially populates the reply
before reporting a type mismatch: decoding the body
`{"Name":"a","Text":5}` into a `LogEntry` sets `Name` to `"a"`, then
fails on `Text`, so `Query` returns a decoding error together with a
modified reply. -/
theorem query_atomicity_counterexample :
    ((Query "c" "a" "k" "m" httpNewRequest
        (fun _ => Except.ok ⟨200, "200 OK", strToBytes "\x7b\"Name\":\"a\",\"Text\":5\x7d", none⟩)
        (none : Option Unit) (fun _ => Except.error "")
        (some ((⟨"", ""⟩ : LogEntry), decodeLogEntryInto))).error).isSome = true ∧
    (Query "c" "a" "k" "m" httpNewRequest
        (fun _ => Except.ok ⟨200, "200 OK", strToBytes "\x7b\"Name\":\"a\",\"Text\":5\x7d", none⟩)
        (none : Option Unit) (fun _ => Except.error "")
        (some ((⟨"", ""⟩ : LogEntry), decodeLogEntryInto))).finalReply
      = some (⟨"a", ""⟩ : LogEntry) ∧
    some (⟨"a", ""⟩ : LogEntry) ≠ some (⟨"", ""⟩ : LogEntry) := by
  refine ⟨rfl, rfl, by decide⟩


/-- C7 amended: whenever `Query` returns an error that did not come
from the reply-decoding step (its message does not carry the decoding
prefix of dashapi.go line 204), the caller's reply value keeps its
initial value; only the JSON decoder itself may leave a partially
populated reply behind an error. -/
theorem query_atomicity_outside_decode {A R : Type} (client addr key method : String)
    (ctor : RequestCtor) (doer : RequestDoer) (req : Option A)
    (jm : A → Except String Bytes) (reply : Option (R × DecodeInto R)) (e : String)
    (he : (Query client addr key method ctor doer req jm reply).error = some e)
    (hne : "failed to unmarshal response: ".data.isPrefixOf e.data = false) :
    (Query client addr key method ctor doer req jm reply).finalReply
      = reply.map Prod.fst := by
  rcases Query_spec client addr key method ctor doer req jm reply with
    ⟨x, m, hreq, hjm, heq⟩ | ⟨body, gz, heq⟩
  · rw [heq]
  · rw [heq] at he ⊢
    rcases querySend_spec client addr key method ctor doer body gz reply with
      ⟨e2, hct, heq2⟩ | ⟨r1, hct, heq2⟩
    · rw [heq2]
    · obtain ⟨r2, heq3⟩ : ∃ r2, querySend client addr key method ctor doer body gz reply
          = queryExec doer r2 reply := ⟨_, heq2⟩
      rw [heq3] at he ⊢
      rcases queryExec_spec doer r2 reply with ⟨e3, hd, heq4⟩ | ⟨resp, hd, heq4⟩
      · rw [heq4]
      · rw [heq4] at he ⊢
        rcases queryResp_spec r2 resp reply with
          ⟨hst, heq5⟩ | ⟨h200, hrep, heq5⟩ | ⟨v0, dec, hrep, h200, hcase⟩
        · rw [heq5]
        · rw [heq5, hrep]
          rfl
        · rcases hcase with ⟨v1, e4, hdd, heq5⟩ | ⟨v1, hdd, heq5⟩
          · exfalso
            rw [heq5] at he
            have hee : "failed to unmarshal response: " ++ e4 = e := Option.some.inj he
            rw [← hee, String.data_append] at hne
            rw [List.isPrefixOf_iff_prefix.mpr (List.prefix_append _ _)] at hne
            simp at hne
          · rw [heq5] at he
            simp at he

/-- C7 amended witness: a transport failure leaves the reply at its
initial value. -/
theorem query_atomicity_outside_decode_witness :
    (Query "c" "a" "k" "m" httpNewRequest (fun _ => Except.error "down")
        (none : Option Unit) (fun _ => Except.error "")
        (some ((⟨"", ""⟩ : LogEntry), decodeLogEntryInto))).finalReply
      = (some ((⟨"", ""⟩ : LogEntry), decodeLogEntryInto)).map Prod.fst :=
  query_atomicity_outside_decode "c" "a" "k" "m" httpNewRequest
    (fun _ => Except.error "down") (none : Option Unit) (fun _ => Except.error "")
    (some ((⟨"", ""⟩ : LogEntry), decodeLogEntryInto)) "http request failed: down"
    rfl (by decide)

/-- C8 counterexample: the claim says every invocation of `Query`
issues exactly one HTTP POST, but an invocation whose payload fails to
serialize (dashapi.go lines 161-164, e.g. `json.Marshal` on an
unsupported type) returns before any request is constructed, so no
POST is issued. -/
theorem query_wire_format_counterexample :
    (Query "c" "a" "k" "m" httpNewRequest (fun _ => Except.error "down")
        (some ()) (fun _ => Except.error "json: unsupported type: chan int")
        (none : Option (Unit × DecodeInto Unit))).sentReq = none := rfl

/-- C8 amended: an invocation of `Query` whose payload marshals
successfully (or carries no payload) issues exactly one HTTP POST,
with the standard request constructor, to
`<address>/api?client=...&key=...&method=...` with the three
parameters always present; the `Content-Type: application/json`
header is set exactly when a request body is present.  An invocation
that fails before the transport (marshal or constructor failure)
issues no POST. -/
theorem query_wire_format {A R : Type} (client addr key method : String)
    (doer : RequestDoer) (req : Option A) (jm : A → Except String Bytes)
    (reply : Option (R × DecodeInto R))
    (hm : ∀ x, req = some x → ∃ d, jm x = Except.ok d) :
    ∃ r, (Query client addr key method httpNewRequest doer req jm reply).sentReq
        = some r ∧
      r.method = "POST" ∧
      r.url = addr ++ "/api?" ++ valuesEncode client key method ∧
      ((headerGet r.headers "Content-Type" = some "application/json")
        ↔ r.body.isSome = true) ∧
      (req = none → r.body = none) := by
  cases req with
  | none =>
    rw [Query, querySend_httpNewRequest]
    exact ⟨_, queryExec_sentReq _ _ _, rfl, rfl, by simp [headerGet], fun _ => rfl⟩
  | some x =>
    obtain ⟨d, hd⟩ := hm x rfl
    rw [Query, hd]
    dsimp only
    by_cases hc : smallOrLocal addr d = true
    · rw [if_pos hc, querySend_httpNewRequest]
      exact ⟨_, queryExec_sentReq _ _ _, rfl, rfl, by simp [headerGet], fun h => nomatch h⟩
    · rw [if_neg hc, querySend_httpNewRequest]
      exact ⟨_, queryExec_sentReq _ _ _, rfl, rfl, by simp [headerGet], fun h => nomatch h⟩

/-- C8 amended witness: a payload-free call still sends all three
query-string parameters and no `Content-Type` header. -/
theorem query_wire_format_witness :
    ∃ r, (Query "c" "http://a" "k" "poll" httpNewRequest (fun _ => Except.error "down")
        (none : Option Unit) (fun _ => Except.error "")
        (none : Option (Unit × DecodeInto Unit))).sentReq = some r ∧
      r.method = "POST" ∧
      r.url = "http://a" ++ "/api?" ++ valuesEncode "c" "k" "poll" ∧
      ((headerGet r.headers "Content-Type" = some "application/json")
        ↔ r.body.isSome = true) ∧
      ((none : Option Unit) = none → r.body = none) :=
  query_wire_format "c" "http://a" "k" "poll" (fun _ => Except.error "down")
    (none : Option Unit) (fun _ => Except.error "")
    (none : Option (Unit × DecodeInto Unit)) (fun _ h => nomatch h)

/-- C5: `LogError` formats its message from the template and
arguments, sends the resulting `LogEntry` through the transport, and
returns without propagating any error, for every transport including
one that always fails (dashapi.go lines 84-90 discard the result of
`query`). -/
theorem logError_best_effort (d : Dashboard) (doer : RequestDoer) (name msg : String)
    (args : List FmtArg) :
    d.LogError doer name msg args = () ∧
    ∃ r, (d.logErrorQuery doer name msg args).sentReq = some r ∧
      r.url = d.Addr ++ "/api?" ++ valuesEncode d.Client d.Key "log_error" ∧
      (r.body = some (strToBytes (jsonSerialize (marshalLogEntry ⟨name, sprintf msg args⟩))) ∨
       r.body = some (gzipCompress
         (strToBytes (jsonSerialize (marshalLogEntry ⟨name, sprintf msg args⟩))))) := by
  refine ⟨rfl, ?_⟩
  rw [Dashboard.logErrorQuery, Dashboard.query, Query]
  dsimp only [marshalLogEntryBytes]
  by_cases hc : smallOrLocal d.Addr
      (strToBytes (jsonSerialize (marshalLogEntry ⟨name, sprintf msg args⟩))) = true
  · rw [if_pos hc, querySend_httpNewRequest]
    exact ⟨_, queryExec_sentReq _ _ _, rfl, Or.inl rfl⟩
  · rw [if_neg hc, querySend_httpNewRequest]
    exact ⟨_, queryExec_sentReq _ _ _, rfl, Or.inr rfl⟩

/-- C9: the `Dashboard` facade exposes, besides `UploadBuild`,
`ReportCrash`, `ReportFailedRepro` and `LogError`, a `Poll` operation
(`PollRequest` to `PollResponse` or error) and an `UpdateBug`
operation (`BugUpdate` to optional error), each delegating to the
transport function `Query` through `Dashboard.query` with a fixed
method name, exactly like the other operations. -/
theorem dashboard_facade_operations (d : Dashboard) (doer : RequestDoer) (b : Build)
    (c : Crash) (f : FailedRepro) (p : PollRequest) (u : BugUpdate) :
    d.UploadBuild doer b = (d.query doer "upload_build" (some b) marshalBuildBytes
      (none : Option (Unit × DecodeInto Unit))).error ∧
    d.ReportCrash doer c = (d.query doer "report_crash" (some c) marshalCrashBytes
      (none : Option (Unit × DecodeInto Unit))).error ∧
    d.ReportFailedRepro doer f = (d.query doer "report_failed_repro" (some f)
      marshalFailedReproBytes (none : Option (Unit × DecodeInto Unit))).error ∧
    d.Poll doer p =
      (match (d.query doer "poll" (some p) marshalPollRequestBytes
          (some (defaultPollResponse, decodePollResponseInto))).error with
        | some e => Except.error e
        | none => Except.ok ((d.query doer "poll" (some p) marshalPollRequestBytes
            (some (defaultPollResponse, decodePollResponseInto))).finalReply.getD
              defaultPollResponse)) ∧
    d.UpdateBug doer u = (d.query doer "update_bug" (some u) marshalBugUpdateBytes
      (none : Option (Unit × DecodeInto Unit))).error :=
  ⟨rfl, rfl, rfl, rfl, rfl⟩

/-- C4: for every value of each entity record type, marshaling to JSON
and unmarshaling the result back (starting from the zero value, as Go
`json.Unmarshal` does) yields the original record field-for-field and
no error, provided the byte-slice fields hold genuine bytes. -/
theorem json_roundtrip_all :
    (∀ b : Build, bytesOk b.KernelConfig →
      unmarshalBuildInto (marshalBuild b) defaultBuild = (b, none)) ∧
    (∀ c : Crash, crashOk c →
      unmarshalCrashInto (marshalCrash c) defaultCrash = (c, none)) ∧
    (∀ f : FailedRepro,
      unmarshalFailedReproInto (marshalFailedRepro f) defaultFailedRepro = (f, none)) ∧
    (∀ e : LogEntry,
      unmarshalLogEntryInto (marshalLogEntry e) defaultLogEntry = (e, none)) ∧
    (∀ r : BugReport, bugReportOk r →
      unmarshalBugReportInto (marshalBugReport r) defaultBugReport = (r, none)) ∧
    (∀ u : BugUpdate,
      unmarshalBugUpdateInto (marshalBugUpdate u) defaultBugUpdate = (u, none)) ∧
    (∀ p : PollRequest,
      unmarshalPollRequestInto (marshalPollRequest p) defaultPollRequest = (p, none)) ∧
    (∀ p : PollResponse, pollResponseOk p →
      unmarshalPollResponseInto (marshalPollResponse p) defaultPollResponse = (p, none)) :=
  ⟨build_rt, crash_rt, failedRepro_rt, logEntry_rt, bugReport_rt, bugUpdate_rt,
    pollRequest_rt, pollResponse_rt⟩

/-- C4 witness: the round trip evaluated on concrete records of every
entity type, with non-empty byte-slice, list, enum and nested-report
fields. -/
theorem json_roundtrip_all_witness :
    unmarshalBuildInto (marshalBuild ⟨"mgr", "id1", "sc", "cc", "repo", "br", "cm",
        some [0, 255, 10]⟩) defaultBuild
      = (⟨"mgr", "id1", "sc", "cc", "repo", "br", "cm", some [0, 255, 10]⟩, none) ∧
    unmarshalCrashInto (marshalCrash ⟨"b1", "title", some ["a@x", "b@y"], some [1, 2],
        some [3], none, some [], some [200]⟩) defaultCrash
      = (⟨"b1", "title", some ["a@x", "b@y"], some [1, 2], some [3], none, some [],
          some [200]⟩, none) ∧
    unmarshalFailedReproInto (marshalFailedRepro ⟨"mgr", "b1", "t"⟩) defaultFailedRepro
      = (⟨"mgr", "b1", "t"⟩, none) ∧
    unmarshalLogEntryInto (marshalLogEntry ⟨"n", "hello"⟩) defaultLogEntry
      = (⟨"n", "hello"⟩, none) ∧
    unmarshalBugReportInto (marshalBugReport ⟨some [7], "id", "t", some ["m"], "cc",
        "repo", "br", "cm", some [8], some [9], none, some [], some [250]⟩) defaultBugReport
      = (⟨some [7], "id", "t", some ["m"], "cc", "repo", "br", "cm", some [8], some [9],
          none, some [], some [250]⟩, none) ∧
    unmarshalBugUpdateInto (marshalBugUpdate ⟨"id", BugStatusDup, ReproLevelC, "dup"⟩)
        defaultBugUpdate
      = (⟨"id", BugStatusDup, ReproLevelC, "dup"⟩, none) ∧
    unmarshalPollRequestInto (marshalPollRequest ⟨"bug"⟩) defaultPollRequest
      = (⟨"bug"⟩, none) ∧
    unmarshalPollResponseInto (marshalPollResponse ⟨some [none,
        some ⟨some [7], "id", "t", some ["m"], "cc", "repo", "br", "cm", some [8],
          some [9], none, some [], some [250]⟩]⟩) defaultPollResponse
      = (⟨some [none, some ⟨some [7], "id", "t", some ["m"], "cc", "repo", "br", "cm",
          some [8], some [9], none, some [], some [250]⟩]⟩, none) :=
  ⟨json_roundtrip_all.1 _ (by decide),
    json_roundtrip_all.2.1 _ (by decide),
    json_roundtrip_all.2.2.1 _,
    json_roundtrip_all.2.2.2.1 _,
    json_roundtrip_all.2.2.2.2.1 _ (by decide),
    json_roundtrip_all.2.2.2.2.2.1 _,
    json_roundtrip_all.2.2.2.2.2.2.1 _,
    json_roundtrip_all.2.2.2.2.2.2.2 _ (by decide)⟩

end Dashapi
